import Mathlib

/-! deepin-album: image provider and mouse event listener

A shallow embedding of `src/imagedata/imageprovider.cpp` — the identifier parser,
the image loaders, the provider cache with its rotation record, and the
synchronous / asynchronous / thumbnail providers — and of
`src/thumbnailview/mouseeventlistener.cpp`, followed by the properties
established about them.

Conventions of the embedding

* `QString` is `String`; positions are counted in characters.
* C++ `int` values are `Int`; where the 32-bit range matters it is explicit:
  `QString::toInt` checks it, and the accumulated rotation angle wraps around
  (`wrapInt32`).
* Toolkit and decoder calls whose result depends on the file system or on pixel
  data (`QUrl::toLocalFile`, the decoders, the resampler, `rotateImage`) are
  fields of `Env`; the general theorems hold for every `Env`, and the statements
  about particular inputs are evaluated in the concrete `demoEnv`.
-/

set_option autoImplicit false

/-! ## Identifier parser -/

/-- The tag `s_tagFrame = "#frame_"`. -/
def s_tagFrame : List Char := ['#', 'f', 'r', 'a', 'm', 'e', '_']

/-- The class `\d` of `QRegularExpression` without `UseUnicodePropertiesOption`:
the ASCII digits. -/
def isDigit (c : Char) : Bool := decide ('0' ≤ c) && decide (c ≤ '9')

/-- `QChar::isSpace`: U+0009..U+000D, U+0020, U+0085, U+00A0 and the Unicode
separator categories. -/
def isSpace (c : Char) : Bool :=
  let n := c.toNat
  (decide (9 ≤ n) && decide (n ≤ 13)) || n == 32 || n == 133 || n == 160 || n == 5760 ||
    (decide (8192 ≤ n) && decide (n ≤ 8202)) || n == 8232 || n == 8233 || n == 8239 ||
    n == 8287 || n == 12288

/-- Value of a string of ASCII digits read in base 10. -/
def digitsValue (ds : List Char) : Nat :=
  ds.foldl (fun acc c => 10 * acc + (c.toNat - '0'.toNat)) 0

/-- `QString::toInt()` (base 10, C locale): surrounding white space is ignored, an
optional sign is followed by one or more ASCII digits, and the result is 0 when
the text is not of that shape or the value does not fit in a 32-bit `int`. -/
def toInt (s : List Char) : Int :=
  let t := ((s.dropWhile isSpace).reverse.dropWhile isSpace).reverse
  let body : List Char := match t with
    | '-' :: ds => ds
    | '+' :: ds => ds
    | ds => ds
  let v : Int := match t with
    | '-' :: _ => -(digitsValue body : Int)
    | _ => (digitsValue body : Int)
  if body.isEmpty || !body.all isDigit then 0
  else if -2147483648 ≤ v ∧ v ≤ 2147483647 then v
  else 0

/-- Does `#frame_\d+$` match with the match starting at the head of `cs`?  After the
tag the greedy `\d+` takes every digit; `$` is the PCRE2 assertion without
`PCRE2_DOLLAR_ENDONLY` (`QRegularExpression` has no option for it): it holds at
the very end of the subject and also immediately before a newline that is the
last character of the subject, the newline being the line feed. -/
def matchesFrameTag (cs : List Char) : Bool :=
  s_tagFrame.isPrefixOf cs &&
    (let rest := cs.drop s_tagFrame.length
     let ds := rest.takeWhile isDigit
     let tl := rest.dropWhile isDigit
     !ds.isEmpty && (tl == [] || tl == ['\n']))

/-- `id.lastIndexOf(QRegularExpression("#frame_\\d+$"))`: the start of the last match
found when the subject is scanned from the left; `none` stands for `-1`.  The
pattern is anchored at the end, so the scan finds at most one match
(`matchesFrameTag_unique`), and the first one found is the last. -/
def lastIndexOf : List Char → Option Nat
  | [] => none
  | c :: cs =>
    if matchesFrameTag (c :: cs) then some 0
    else (lastIndexOf cs).map (fun i => i + 1)

/-- `parseProviderID(id, filePath, frameIndex)`; the two out-parameters are the
components of the result.  `toLocalFile s` stands for `QUrl(s).toLocalFile()`. -/
def parseProviderID (toLocalFile : String → String) (id : String) : String × Int :=
  match lastIndexOf id.data with
  | none => (toLocalFile id, 0)
  | some index =>
    (toLocalFile (String.mk (id.data.take index)),
     toInt (id.data.drop (id.data.length - (id.data.length - index - s_tagFrame.length))))

/-- Splits `cs` as `pre ++ "#frame_" ++ ds` with `ds` one or more decimal digits,
when `cs` ends that way. -/
def splitFrameSuffix (cs : List Char) : Option (List Char × List Char) :=
  let ds := (cs.reverse.takeWhile isDigit).reverse
  let pre := (cs.reverse.dropWhile isDigit).reverse
  if !ds.isEmpty && s_tagFrame.reverse.isPrefixOf pre.reverse then
    some (pre.take (pre.length - s_tagFrame.length), ds)
  else none

/-- The reference definition as the specification words it: when `id` ends with
`#frame_` followed by one or more decimal digits whose value fits in a signed
32-bit `int`, the path is converted from the part before that tag and the frame
is the value; otherwise the whole `id` is converted and the frame is 0. -/
def parseProviderID_spec (toLocalFile : String → String) (id : String) : String × Int :=
  match splitFrameSuffix id.data with
  | some (pre, ds) =>
    if digitsValue ds ≤ 2147483647 then (toLocalFile (String.mk pre), (digitsValue ds : Int))
    else (toLocalFile id, 0)
  | none => (toLocalFile id, 0)

/-- Removes one line feed at the very end of the text, if there is one. -/
def dropFinalNewline (cs : List Char) : List Char :=
  if cs.getLast? = some '\n' then cs.dropLast else cs

/-- The reference definition amended to what the parser computes: a line feed that is
the last character of `id` is disregarded when looking for the `#frame_` suffix, the
path is always converted from the part before the tag when the suffix is there,
and a value outside the 32-bit range gives frame 0. -/
def parseProviderID_amended (toLocalFile : String → String) (id : String) : String × Int :=
  match splitFrameSuffix (dropFinalNewline id.data) with
  | some (pre, ds) =>
    (toLocalFile (String.mk pre),
     if digitsValue ds ≤ 2147483647 then (digitsValue ds : Int) else 0)
  | none => (toLocalFile id, 0)


/-! ## Sizes and images (toolkit types) -/

/-- `QSize`: a pair of `int`s. -/
structure QSize where
  wd : Int
  ht : Int
deriving DecidableEq, Repr

/-- `QSize()`: the default-constructed, invalid size `(-1, -1)`. -/
def QSize.invalid : QSize := ⟨-1, -1⟩

/-- `QSize::isValid()`: both dimensions are at least 0. -/
def QSize.isValid (s : QSize) : Bool := decide (0 ≤ s.wd) && decide (0 ≤ s.ht)

/-- `QSize::isEmpty()`: one of the dimensions is less than 1. -/
def QSize.isEmpty (s : QSize) : Bool := decide (s.wd < 1) || decide (s.ht < 1)

/-- `Qt::AspectRatioMode`. -/
inductive AspectRatioMode where
  | IgnoreAspectRatio
  | KeepAspectRatio
  | KeepAspectRatioByExpanding
deriving DecidableEq, Repr

/-- `Qt::TransformationMode`. -/
inductive TransformationMode where
  | FastTransformation
  | SmoothTransformation
deriving DecidableEq, Repr

/-- `QSize::scaled(s, mode)`: the size `self` scaled to the rectangle `s`. -/
def QSize.scaled (self s : QSize) (mode : AspectRatioMode) : QSize :=
  if mode = AspectRatioMode.IgnoreAspectRatio ∨ self.wd = 0 ∨ self.ht = 0 then s
  else
    let rw := (s.ht * self.wd).tdiv self.ht
    let useHeight : Bool :=
      if mode = AspectRatioMode.KeepAspectRatio then decide (rw ≤ s.wd) else decide (s.wd ≤ rw)
    if useHeight then ⟨rw, s.ht⟩ else ⟨s.wd, (s.wd * self.ht).tdiv self.wd⟩

/-- `QImage`: an image of `width × height` pixels; `bits` stands for the pixel data.
An image with a dimension equal to 0 has no data and is null. -/
structure QImage where
  width : Nat
  height : Nat
  bits : List Nat
deriving DecidableEq, Repr

/-- `QImage()`: the null image. -/
def QImage.null : QImage := ⟨0, 0, []⟩

/-- `QImage::isNull()`. -/
def QImage.isNull (i : QImage) : Bool := i.width == 0 || i.height == 0

/-- `QImage::size()`; the size of a null image is `(0, 0)`. -/
def QImage.size (i : QImage) : QSize :=
  if i.isNull then ⟨0, 0⟩ else ⟨(i.width : Int), (i.height : Int)⟩

/-- What the program obtains from the toolkit, the decoders and the file system. -/
structure Env where
  /-- `QUrl(s).toLocalFile()`. -/
  toLocalFile : String → String
  /-- `LibUnionImage_NameSpace::loadStaticImageFromFile(path, image, error)`: the
  success flag and the contents of `image` after the call. -/
  loadStaticImageFromFile : String → Bool × QImage
  /-- `QImageReader(path).jumpToImage(frame)`. -/
  jumpToImage : String → Int → Bool
  /-- `QImageReader::read()` after a successful jump to the frame. -/
  read : String → Int → QImage
  /-- The pixel data of an image resampled to the given width and height. -/
  transformed : QImage → Nat → Nat → TransformationMode → List Nat
  /-- `LibUnionImage_NameSpace::rotateImage(angle, image)`: the contents of `image`
  after the call. -/
  rotateImage : Int → QImage → QImage

/-- `QImage::scaled(s, aspectMode, mode)`: a null image for a null image and for an
empty size `s`; otherwise the image itself when the new size is its size, and else
an image of the new size. -/
def QImage.scaled (env : Env) (img : QImage) (s : QSize) (aspectMode : AspectRatioMode)
    (mode : TransformationMode) : QImage :=
  if img.isNull then QImage.null
  else if s.isEmpty then QImage.null
  else
    let scaledSize := img.size.scaled s aspectMode
    let newSize : QSize := ⟨max scaledSize.wd 1, max scaledSize.ht 1⟩
    if newSize = img.size then img
    else ⟨newSize.wd.toNat, newSize.ht.toNat,
      env.transformed img newSize.wd.toNat newSize.ht.toNat mode⟩

/-! ## Image loaders -/

/-- `readNormalImage(imagePath)`: the image is returned whatever the success flag. -/
def readNormalImage (env : Env) (imagePath : String) : QImage :=
  (env.loadStaticImageFromFile imagePath).2

/-- `readMultiImage(imagePath, frameIndex)`. -/
def readMultiImage (env : Env) (imagePath : String) (frameIndex : Int) : QImage :=
  if env.jumpToImage imagePath frameIndex then env.read imagePath frameIndex
  else QImage.null

/-! ## Bounded image cache -/

/-- `ThumbnailCache::Key`: file path and frame index. -/
abbrev Key := String × Int

/-- Modelled from the spec: the class `ThumbnailCache` (`imagedata/thumbnailcache.h`),
which is not among the sources: "fixed-capacity map from (path, frame) to decoded
image".  The entries are kept newest first and there are never more than
`maxCost` of them after an insertion. -/
structure ThumbnailCache where
  maxCost : Nat
  entries : List (Key × QImage)
deriving DecidableEq, Repr

/-- Modelled from the spec: the constructor of `ThumbnailCache`, an empty map; its
default capacity is not in the sources and is a parameter. -/
def ThumbnailCache.new (maxCost : Nat) : ThumbnailCache := ⟨maxCost, []⟩

/-- Modelled from the spec: `ThumbnailCache::keys()`, the keys of the map. -/
def ThumbnailCache.keys (c : ThumbnailCache) : List Key := c.entries.map (fun e => e.1)

/-- Modelled from the spec: `ThumbnailCache::contains(path, frameIndex)`. -/
def ThumbnailCache.contains (c : ThumbnailCache) (path : String) (frameIndex : Int) : Bool :=
  c.entries.any (fun e => e.1 == (path, frameIndex))

/-- Modelled from the spec: `ThumbnailCache::get(path, frameIndex)`, the image stored
under the key, and the null image when the map has no such key. -/
def ThumbnailCache.get (c : ThumbnailCache) (path : String) (frameIndex : Int) : QImage :=
  match c.entries.find? (fun e => e.1 == (path, frameIndex)) with
  | some e => e.2
  | none => QImage.null

/-- Modelled from the spec: `ThumbnailCache::remove(path, frameIndex)`. -/
def ThumbnailCache.remove (c : ThumbnailCache) (path : String) (frameIndex : Int) :
    ThumbnailCache :=
  { c with entries := c.entries.filter (fun e => e.1 != (path, frameIndex)) }

/-- Modelled from the spec: `ThumbnailCache::add(path, frameIndex, image)`: the image
replaces what the key held, and the oldest entries beyond the capacity are
dropped. -/
def ThumbnailCache.add (c : ThumbnailCache) (path : String) (frameIndex : Int)
    (image : QImage) : ThumbnailCache :=
  { c with entries :=
      (((path, frameIndex), image) ::
        c.entries.filter (fun e => e.1 != (path, frameIndex))).take c.maxCost }

/-- Modelled from the spec: `ThumbnailCache::clear()`. -/
def ThumbnailCache.clear (c : ThumbnailCache) : ThumbnailCache := { c with entries := [] }

/-- Modelled from the spec: `ThumbnailCache::setMaxCost(maxCost)`: the capacity is
fixed at `maxCost`. -/
def ThumbnailCache.setMaxCost (c : ThumbnailCache) (maxCost : Nat) : ThumbnailCache :=
  { maxCost := maxCost, entries := c.entries.take maxCost }

/-! ## Requests -/

/-- A decoding of a file, recorded where the loaders are called. -/
inductive Decoded where
  | staticLoader (path : String)
  | multiFrameReader (path : String) (frameIndex : Int)
deriving DecidableEq, Repr

/-- What a request leaves behind: the image handed back, the contents of `*size`
(`none` for a null pointer), the files decoded on the way, and the cache. -/
structure Outcome where
  image : QImage
  size : Option QSize
  decoded : List Decoded
  cache : ThumbnailCache
deriving DecidableEq, Repr

/-- `AsyncImageResponse::run()` for a response created with `providerId` and
`requestedSize`, on the image cache of its provider. -/
def AsyncImageResponse.run (env : Env) (imageCache : ThumbnailCache) (providerId : String)
    (requestedSize : QSize) : Outcome :=
  let (tempPath, frameIndex) := parseProviderID env.toLocalFile providerId
  let cached := imageCache.get tempPath frameIndex
  let (image, decoded, cache) :=
    if cached.isNull then
      let image := if frameIndex ≠ 0 then readMultiImage env tempPath frameIndex
        else readNormalImage env tempPath
      (image,
        [if frameIndex ≠ 0 then Decoded.multiFrameReader tempPath frameIndex
          else Decoded.staticLoader tempPath],
        imageCache.add tempPath frameIndex image)
    else (cached, [], imageCache)
  let image :=
    if !image.isNull && image.size != requestedSize && requestedSize.isValid then
      image.scaled env requestedSize AspectRatioMode.IgnoreAspectRatio
        TransformationMode.FastTransformation
    else image
  { image := image, size := none, decoded := decoded, cache := cache }

/-- `ImageProvider::requestImage(id, size, requestedSize)` on the image cache of the
provider; `size` is what `*size` holds before the call, `none` for a null
pointer. -/
def ImageProvider.requestImage (env : Env) (imageCache : ThumbnailCache) (id : String)
    (size : Option QSize) (requestedSize : QSize) : Outcome :=
  let (tempPath, frameIndex) := parseProviderID env.toLocalFile id
  let cached := imageCache.get tempPath frameIndex
  let (image, size, decoded, cache) :=
    if cached.isNull then
      let image := if frameIndex ≠ 0 then readMultiImage env tempPath frameIndex
        else readNormalImage env tempPath
      (image, size.map (fun _ => image.size),
        [if frameIndex ≠ 0 then Decoded.multiFrameReader tempPath frameIndex
          else Decoded.staticLoader tempPath],
        imageCache.add tempPath frameIndex image)
    else (cached, size, [], imageCache)
  let image :=
    if !image.isNull && image.size != requestedSize && requestedSize.isValid then
      image.scaled env requestedSize AspectRatioMode.IgnoreAspectRatio
        TransformationMode.FastTransformation
    else image
  { image := image, size := size, decoded := decoded, cache := cache }

/-- `ThumbnailProvider::requestImage(id, size, requestedSize)` on the shared
`ThumbnailCache::instance()`. -/
def ThumbnailProvider.requestImage (env : Env) (thumbnails : ThumbnailCache) (id : String)
    (size : Option QSize) (requestedSize : QSize) : Outcome :=
  let (tempPath, frameIndex) := parseProviderID env.toLocalFile id
  if thumbnails.contains tempPath frameIndex then
    { image := thumbnails.get tempPath frameIndex, size := size, decoded := [],
      cache := thumbnails }
  else
    let image := if frameIndex ≠ 0 then readMultiImage env tempPath frameIndex
      else readNormalImage env tempPath
    let tmpImage := image.scaled env ⟨100, 100⟩ AspectRatioMode.KeepAspectRatioByExpanding
      TransformationMode.SmoothTransformation
    let cache := thumbnails.add tempPath frameIndex tmpImage
    let size := size.map (fun _ => image.size)
    let decoded := [if frameIndex ≠ 0 then Decoded.multiFrameReader tempPath frameIndex
      else Decoded.staticLoader tempPath]
    let image :=
      if !image.isNull && image.size != requestedSize && requestedSize.isValid then
        image.scaled env requestedSize AspectRatioMode.IgnoreAspectRatio
          TransformationMode.FastTransformation
      else image
    { image := image, size := size, decoded := decoded, cache := cache }

/-! ## Provider cache and rotation record -/

/-- The value of an `int` after an arithmetic result `x`: the 32-bit two's complement
wrap-around of `x`. -/
def wrapInt32 (x : Int) : Int := (x + 2147483648) % 4294967296 - 2147483648

/-- The angle accumulated by `lastRotation += angle` over the given angles, from
`start`. -/
def accumulateRotation (start : Int) (angles : List Int) : Int :=
  angles.foldl (fun total angle => wrapInt32 (total + angle)) start

/-- `ProviderCache`: the image cache and the record of the last rotation. -/
structure ProviderCache where
  imageCache : ThumbnailCache
  lastRotatePath : String
  lastRotateImage : QImage
  lastRotation : Int
deriving DecidableEq, Repr

/-- `ProviderCache::ProviderCache()`; the default capacity of the image cache is that
of `ThumbnailCache`. -/
def ProviderCache.new (defaultMaxCost : Nat) : ProviderCache :=
  { imageCache := ThumbnailCache.new defaultMaxCost, lastRotatePath := "",
    lastRotateImage := QImage.null, lastRotation := 0 }

/-- `AsyncImageProvider::AsyncImageProvider()`: `imageCache.setMaxCost(4)`. -/
def AsyncImageProvider.new (defaultMaxCost : Nat) : ProviderCache :=
  let self := ProviderCache.new defaultMaxCost
  { self with imageCache := self.imageCache.setMaxCost 4 }

/-- `ProviderCache::rotateImageCached(angle, imagePath, frameIndex)`; the second
component of the state is the shared `ThumbnailCache::instance()`.  `angle` is an
`int`, and `lastRotation += angle` is the `int` sum, which wraps around. -/
def ProviderCache.rotateImageCached (env : Env) (angle : Int) (imagePath : String)
    (frameIndex : Int) (self : ProviderCache) (thumbnails : ThumbnailCache) :
    ProviderCache × ThumbnailCache :=
  if angle = 0 then (self, thumbnails)
  else
    let (image, self) :=
      if imagePath ≠ self.lastRotatePath then
        let image := self.imageCache.get imagePath frameIndex
        (image, { self with lastRotateImage := image, lastRotatePath := imagePath,
                            lastRotation := angle })
      else
        (self.lastRotateImage,
          { self with lastRotation := wrapInt32 (self.lastRotation + angle) })
    if !image.isNull then
      let image :=
        if self.lastRotation.tmod 360 ≠ 0 then env.rotateImage self.lastRotation image
        else image
      let tmpImage := image.scaled env ⟨100, 100⟩ AspectRatioMode.KeepAspectRatioByExpanding
        TransformationMode.SmoothTransformation
      ({ self with imageCache := self.imageCache.add imagePath frameIndex image },
        thumbnails.add imagePath frameIndex tmpImage)
    else (self, thumbnails)

/-- `ProviderCache::removeImageCache(imagePath)`: every key of the image cache whose
path is `imagePath` is removed. -/
def ProviderCache.removeImageCache (imagePath : String) (self : ProviderCache) :
    ProviderCache :=
  let keys := self.imageCache.keys
  let cache := keys.foldl
    (fun cache key => if key.1 = imagePath then cache.remove key.1 key.2 else cache)
    self.imageCache
  { self with imageCache := cache }

/-- `ProviderCache::clearCache()`. -/
def ProviderCache.clearCache (self : ProviderCache) : ProviderCache :=
  { self with imageCache := self.imageCache.clear, lastRotatePath := "",
              lastRotateImage := QImage.null }

/-- The calls an `AsyncImageProvider` receives; a response runs when it is requested. -/
inductive Call where
  | requestImageResponse (id : String) (requestedSize : QSize)
  | preloadImage (filePath : String)
  | rotateImageCached (angle : Int) (imagePath : String) (frameIndex : Int)
  | removeImageCache (imagePath : String)
  | clearCache
deriving DecidableEq, Repr

/-- One call on an `AsyncImageProvider` and the shared thumbnail cache. -/
def AsyncImageProvider.step (env : Env) (st : ProviderCache × ThumbnailCache) (call : Call) :
    ProviderCache × ThumbnailCache :=
  let self := st.1
  match call with
  | Call.requestImageResponse id requestedSize =>
    let response := AsyncImageResponse.run env self.imageCache id requestedSize
    ({ self with imageCache := response.cache }, st.2)
  | Call.preloadImage filePath =>
    let response := AsyncImageResponse.run env self.imageCache filePath QSize.invalid
    ({ self with imageCache := response.cache }, st.2)
  | Call.rotateImageCached angle imagePath frameIndex =>
    self.rotateImageCached env angle imagePath frameIndex st.2
  | Call.removeImageCache imagePath => (self.removeImageCache imagePath, st.2)
  | Call.clearCache => (self.clearCache, st.2)

/-! ## A concrete environment

Two files: `/a.png`, a single image of 400 × 200, and `/b.tif`, three frames of
300 × 200, 301 × 200 and 302 × 200. -/

/-- `QUrl(s).toLocalFile()` on the identifiers used below: the path of a `file://`
URL without its fragment, and the empty string for any other text. -/
def localFileOfUrl (s : String) : String :=
  if ("file://".data).isPrefixOf s.data then
    String.mk ((s.data.drop 7).takeWhile (fun c => c != '#'))
  else ""

/-- A quarter-turn rotation: the dimensions are exchanged by an odd number of
quarter turns; other angles leave the image as it is. -/
def rotateQuarterTurns (angle : Int) (image : QImage) : QImage :=
  if angle.tmod 90 ≠ 0 then image
  else if (angle.tdiv 90).tmod 2 = 0 then { image with bits := angle.natAbs :: image.bits }
  else ⟨image.height, image.width, angle.natAbs :: image.bits⟩

/-- The environment with the two files. -/
def demoEnv : Env where
  toLocalFile := localFileOfUrl
  loadStaticImageFromFile := fun path =>
    if path = "/a.png" then (true, ⟨400, 200, [7]⟩)
    else if path = "/b.tif" then (true, ⟨300, 200, [0]⟩)
    else (false, QImage.null)
  jumpToImage := fun path frame => path == "/b.tif" && decide (0 ≤ frame) && decide (frame < 3)
  read := fun _ frame => ⟨300 + frame.toNat, 200, [frame.toNat]⟩
  transformed := fun image width height _ => width :: height :: image.bits
  rotateImage := rotateQuarterTurns

/-- The image a request works on before the resizing step: the one found in the cache
when that is not null, and otherwise the one decoded from the file. -/
def loadedImage (env : Env) (imageCache : ThumbnailCache) (id : String) : QImage :=
  let (tempPath, frameIndex) := parseProviderID env.toLocalFile id
  let cached := imageCache.get tempPath frameIndex
  if cached.isNull then
    if frameIndex ≠ 0 then readMultiImage env tempPath frameIndex
    else readNormalImage env tempPath
  else cached

/-- The cache holds at most `maxCost` entries, under keys that are all different. -/
def ThumbnailCache.Bounded (c : ThumbnailCache) : Prop :=
  c.entries.length ≤ c.maxCost ∧ c.keys.Nodup

/-- An `AsyncImageProvider` after frames 0 and 1 of `/b.tif` were loaded and frame 1
was rotated by 90 degrees. -/
def afterRotatingFrameOne : ProviderCache × ThumbnailCache :=
  [Call.requestImageResponse "file:///b.tif" QSize.invalid,
    Call.requestImageResponse "file:///b.tif#frame_1" QSize.invalid,
    Call.rotateImageCached 90 "/b.tif" 1].foldl
    (AsyncImageProvider.step demoEnv) (AsyncImageProvider.new 100, ThumbnailCache.new 100)

/-- An `AsyncImageProvider` after `/a.png` was loaded and rotated by 90 degrees. -/
def afterRotatingA : ProviderCache × ThumbnailCache :=
  [Call.requestImageResponse "file:///a.png" QSize.invalid,
    Call.rotateImageCached 90 "/a.png" 0].foldl
    (AsyncImageProvider.step demoEnv) (AsyncImageProvider.new 100, ThumbnailCache.new 100)

/-! ## Mouse event listener (`src/thumbnailview/mouseeventlistener.cpp`)

Positions are whole device pixels.  The hold timer is known by whether it is
active; its expiry is the call `timeout`, which only an active timer makes. -/

/-- `QPointF` (and `QPoint`). -/
structure QPointF where
  x : Int
  y : Int
deriving DecidableEq, Repr

/-- The sum of two points. -/
def QPointF.add (a b : QPointF) : QPointF := ⟨a.x + b.x, a.y + b.y⟩

/-- The difference of two points. -/
def QPointF.sub (a b : QPointF) : QPointF := ⟨a.x - b.x, a.y - b.y⟩

/-- `QPointF::manhattanLength()`. -/
def QPointF.manhattanLength (p : QPointF) : Int := (p.x.natAbs : Int) + (p.y.natAbs : Int)

/-- `QRectF`: top-left corner, width and height. -/
structure QRectF where
  xp : Int
  yp : Int
  w : Int
  h : Int
deriving DecidableEq, Repr

/-- `QRectF::contains(point)`: the edges belong to the rectangle, and a rectangle of
width or height 0 contains nothing. -/
def QRectF.contains (r : QRectF) (p : QPointF) : Bool :=
  let l := if r.w < 0 then r.xp + r.w else r.xp
  let rt := if r.w < 0 then r.xp else r.xp + r.w
  if l = rt then false
  else if p.x < l ∨ rt < p.x then false
  else
    let t := if r.h < 0 then r.yp + r.h else r.yp
    let b := if r.h < 0 then r.yp else r.yp + r.h
    if t = b then false
    else if p.y < t ∨ b < p.y then false
    else true

/-- `KDeclarativeMouseEvent`: what the re-emitted signals carry. -/
structure KDeclarativeMouseEvent where
  x : Int
  y : Int
  screenX : Int
  screenY : Int
  button : Nat
  buttons : Nat
  modifiers : Nat
  screen : Option Nat
  source : Nat
deriving DecidableEq, Repr

/-- `QMouseEvent` as delivered to the listener.  `id` is the identity of the event
object (the pointer compared with `m_lastEvent`), `screen` what
`screenForGlobalPos(me->globalPos())` finds, and `dmeAccepted` whether a handler of
the signals re-emitted for the event accepts the declarative event. -/
structure QMouseEvent where
  id : Nat
  pos : QPointF
  windowPos : QPointF
  screenPos : QPointF
  button : Nat
  buttons : Nat
  modifiers : Nat
  screen : Option Nat
  source : Nat
  dmeAccepted : Bool
deriving DecidableEq, Repr

/-- `QHoverEvent`. -/
structure QHoverEvent where
  id : Nat
  pos : QPointF
  modifiers : Nat
  dmeAccepted : Bool
deriving DecidableEq, Repr

/-- The events `childMouseEventFilter` distinguishes. -/
inductive QEvent where
  | MouseButtonPress (me : QMouseEvent)
  | HoverMove (he : QHoverEvent)
  | MouseMove (me : QMouseEvent)
  | MouseButtonRelease (me : QMouseEvent)
  | UngrabMouse (id : Nat)
  | Wheel (id : Nat)
  | other (id : Nat)
deriving DecidableEq, Repr

/-- The signals of the listener. -/
inductive Signal where
  | acceptedButtonsChanged
  | hoverEnabledChanged (enable : Bool)
  | containsMouseChanged (containsMouse : Bool)
  | positionChanged (dme : KDeclarativeMouseEvent)
  | pressed (dme : KDeclarativeMouseEvent)
  | pressedChanged
  | released (dme : KDeclarativeMouseEvent)
  | clicked (dme : KDeclarativeMouseEvent)
  | pressAndHold (dme : Option KDeclarativeMouseEvent)
  | wheelMoved
  | canceled
deriving DecidableEq, Repr

/-- Is the signal `pressAndHold`? -/
def Signal.isPressAndHold : Signal → Bool
  | Signal.pressAndHold _ => true
  | _ => false

/-- Is the signal `clicked`? -/
def Signal.isClicked : Signal → Bool
  | Signal.clicked _ => true
  | _ => false

/-- Is the signal `released`? -/
def Signal.isReleased : Signal → Bool
  | Signal.released _ => true
  | _ => false

/-- `MouseEventListener`: its members, whether `m_pressAndHoldTimer` is active, and
the properties of the item it reads (`isEnabled()`, `acceptHoverEvents()`,
`width()`, `height()`, `mapToScene(QPoint(0, 0))`, `window()->position()`, the
last being `none` when the item has no window). -/
structure MouseEventListener where
  m_pressed : Bool
  m_pressAndHoldEvent : Option KDeclarativeMouseEvent
  m_lastEvent : Option Nat
  m_containsMouse : Bool
  m_enableMouse : Bool
  m_acceptedButtons : Nat
  m_buttonDownPos : QPointF
  timerActive : Bool
  enabled : Bool
  acceptHoverEvents : Bool
  width : Int
  height : Int
  scenePos : QPointF
  windowPosition : Option QPointF
deriving DecidableEq, Repr

/-- `Qt::LeftButton`. -/
def LeftButton : Nat := 1

/-- `Qt::RightButton`. -/
def RightButton : Nat := 2

/-- `MouseEventListener::MouseEventListener(parent)` for an item of the given
geometry. -/
def MouseEventListener.new (width height : Int) (scenePos : QPointF)
    (windowPosition : Option QPointF) : MouseEventListener :=
  { m_pressed := false, m_pressAndHoldEvent := none, m_lastEvent := none,
    m_containsMouse := false, m_enableMouse := true, m_acceptedButtons := LeftButton,
    m_buttonDownPos := ⟨0, 0⟩, timerActive := false, enabled := true,
    acceptHoverEvents := false, width := width, height := height, scenePos := scenePos,
    windowPosition := windowPosition }

/-- What a call leaves behind: the listener, the signals emitted in order, and what
the call decided for the event (`setAccepted` / `ignore` for an event handler,
the value returned for `childMouseEventFilter`; `none` when it decides nothing). -/
structure Effect where
  self : MouseEventListener
  signals : List Signal
  accepted : Option Bool
deriving DecidableEq, Repr

/-- The declarative event built from a mouse event at the local position `p`. -/
def QMouseEvent.toDeclarative (me : QMouseEvent) (p : QPointF) : KDeclarativeMouseEvent :=
  { x := p.x, y := p.y, screenX := me.screenPos.x, screenY := me.screenPos.y,
    button := me.button, buttons := me.buttons, modifiers := me.modifiers,
    screen := me.screen, source := me.source }

/-- `mapFromScene(point)` for an item that is only translated. -/
def MouseEventListener.mapFromScene (self : MouseEventListener) (p : QPointF) : QPointF :=
  p.sub self.scenePos

/-- `boundingRect()`. -/
def MouseEventListener.boundingRect (self : MouseEventListener) : QRectF :=
  ⟨0, 0, self.width, self.height⟩

/-- `MouseEventListener::setEnableMouse(enable)`. -/
def MouseEventListener.setEnableMouse (self : MouseEventListener) (enable : Bool) : Effect :=
  ⟨{ self with m_enableMouse := enable }, [], none⟩

/-- `MouseEventListener::setAcceptedButtons(buttons)`. -/
def MouseEventListener.setAcceptedButtons (self : MouseEventListener) (buttons : Nat) :
    Effect :=
  if buttons = self.m_acceptedButtons then ⟨self, [], none⟩
  else ⟨{ self with m_acceptedButtons := buttons }, [Signal.acceptedButtonsChanged], none⟩

/-- `MouseEventListener::setHoverEnabled(enable)`. -/
def MouseEventListener.setHoverEnabled (self : MouseEventListener) (enable : Bool) : Effect :=
  if enable = self.acceptHoverEvents then ⟨self, [], none⟩
  else ⟨{ self with acceptHoverEvents := enable }, [Signal.hoverEnabledChanged enable], none⟩

/-- `MouseEventListener::hoverEnterEvent(event)`. -/
def MouseEventListener.hoverEnterEvent (self : MouseEventListener) : Effect :=
  if !self.m_enableMouse then ⟨self, [], none⟩
  else ⟨{ self with m_containsMouse := true }, [Signal.containsMouseChanged true], none⟩

/-- `MouseEventListener::hoverLeaveEvent(event)`. -/
def MouseEventListener.hoverLeaveEvent (self : MouseEventListener) : Effect :=
  if !self.m_enableMouse then ⟨self, [], none⟩
  else ⟨{ self with m_containsMouse := false }, [Signal.containsMouseChanged false], none⟩

/-- The declarative event of a hover move at the local position `p`: no button, and
the screen position `window()->mapToGlobal(p)`, the origin without a window. -/
def MouseEventListener.hoverDeclarative (self : MouseEventListener) (he : QHoverEvent)
    (p : QPointF) : KDeclarativeMouseEvent :=
  let screenPos : QPointF := match self.windowPosition with
    | some w => w.add p
    | none => ⟨0, 0⟩
  { x := p.x, y := p.y, screenX := screenPos.x, screenY := screenPos.y, button := 0,
    buttons := 0, modifiers := he.modifiers, screen := none, source := 0 }

/-- `MouseEventListener::hoverMoveEvent(event)`. -/
def MouseEventListener.hoverMoveEvent (self : MouseEventListener) (event : QHoverEvent) :
    Effect :=
  if self.m_lastEvent = some event.id ∨ self.m_enableMouse = false then ⟨self, [], none⟩
  else ⟨self, [Signal.positionChanged (self.hoverDeclarative event event.pos)], none⟩

/-- `MouseEventListener::mousePressEvent(me)`. -/
def MouseEventListener.mousePressEvent (self : MouseEventListener) (me : QMouseEvent) :
    Effect :=
  if self.m_lastEvent = some me.id ∨ (me.buttons &&& self.m_acceptedButtons) = 0 ∨
      self.m_enableMouse = false then
    ⟨self, [], some false⟩
  else
    let viewPosition : QPointF := match self.windowPosition with
      | some w => w
      | none => ⟨0, 0⟩
    let corner := self.scenePos.add viewPosition
    if !(QRectF.mk corner.x corner.y self.width self.height).contains me.screenPos then
      ⟨self, [], some false⟩
    else
      let dme := me.toDeclarative me.pos
      let holdEvent := match self.m_pressAndHoldEvent with
        | some e => some e
        | none => some (me.toDeclarative me.pos)
      let self := { self with m_buttonDownPos := me.screenPos, m_pressAndHoldEvent := holdEvent,
                              m_pressed := true }
      if me.dmeAccepted then ⟨self, [Signal.pressed dme, Signal.pressedChanged], some true⟩
      else
        ⟨{ self with timerActive := true }, [Signal.pressed dme, Signal.pressedChanged], none⟩

/-- `MouseEventListener::mouseMoveEvent(me)`; `startDragDistance` is
`QGuiApplication::styleHints()->startDragDistance()`. -/
def MouseEventListener.mouseMoveEvent (startDragDistance : Int) (self : MouseEventListener)
    (me : QMouseEvent) : Effect :=
  if self.m_lastEvent = some me.id ∨ (me.buttons &&& self.m_acceptedButtons) = 0 ∨
      self.m_enableMouse = false then
    ⟨self, [], some false⟩
  else
    let self :=
      if startDragDistance < (me.screenPos.sub self.m_buttonDownPos).manhattanLength ∧
          self.timerActive = true then
        { self with timerActive := false }
      else self
    let dme := me.toDeclarative me.pos
    ⟨self, [Signal.positionChanged dme], if me.dmeAccepted then some true else none⟩

/-- `MouseEventListener::mouseReleaseEvent(me)`. -/
def MouseEventListener.mouseReleaseEvent (self : MouseEventListener) (me : QMouseEvent) :
    Effect :=
  if self.m_lastEvent = some me.id ∨ self.m_enableMouse = false then ⟨self, [], some false⟩
  else
    let dme := me.toDeclarative me.pos
    let self := { self with m_pressed := false }
    let accepted := if me.dmeAccepted then some true else none
    if self.boundingRect.contains me.pos ∧ self.timerActive = true then
      ⟨{ self with timerActive := false },
        [Signal.released dme, Signal.pressedChanged, Signal.clicked dme], accepted⟩
    else ⟨self, [Signal.released dme, Signal.pressedChanged], accepted⟩

/-- `MouseEventListener::wheelEvent(we)`; `id` is the identity of the event. -/
def MouseEventListener.wheelEvent (self : MouseEventListener) (id : Nat) : Effect :=
  if self.m_lastEvent = some id ∨ self.m_enableMouse = false then ⟨self, [], some false⟩
  else ⟨self, [Signal.wheelMoved], none⟩

/-- `MouseEventListener::handlePressAndHold()`. -/
def MouseEventListener.handlePressAndHold (self : MouseEventListener) : Effect :=
  if !self.m_enableMouse then ⟨self, [], none⟩
  else if self.m_pressed then
    ⟨{ self with m_pressAndHoldEvent := none }, [Signal.pressAndHold self.m_pressAndHoldEvent],
      none⟩
  else ⟨self, [], none⟩

/-- The expiry of the single-shot hold timer: an active timer becomes inactive and its
`timeout` signal calls `handlePressAndHold`; a timer that is not active does not
expire. -/
def MouseEventListener.timeout (self : MouseEventListener) : Effect :=
  if self.timerActive then
    MouseEventListener.handlePressAndHold { self with timerActive := false }
  else ⟨self, [], none⟩

/-- `MouseEventListener::handleUngrab()`. -/
def MouseEventListener.handleUngrab (self : MouseEventListener) : Effect :=
  if !self.m_enableMouse then ⟨self, [], none⟩
  else if self.m_pressed then
    ⟨{ self with timerActive := false, m_pressed := false },
      [Signal.pressedChanged, Signal.canceled], none⟩
  else ⟨self, [], none⟩

/-- `MouseEventListener::mouseUngrabEvent()`. -/
def MouseEventListener.mouseUngrabEvent (self : MouseEventListener) : Effect :=
  self.handleUngrab

/-- `MouseEventListener::touchUngrabEvent()`. -/
def MouseEventListener.touchUngrabEvent (self : MouseEventListener) : Effect :=
  self.handleUngrab

/-- `MouseEventListener::childMouseEventFilter(item, event)`: `itemIsListener` is
whether `item` is itself a `MouseEventListener`, `itemPos` the position of `item`
in the coordinates of the listener (`item->mapToItem(this, p)` is `itemPos + p`).
The value returned is in `accepted`; the base class returns `false`. -/
def MouseEventListener.childMouseEventFilter (startDragDistance : Int)
    (self : MouseEventListener) (itemIsListener : Bool) (itemPos : QPointF) (event : QEvent) :
    Effect :=
  if self.enabled = false ∨ self.m_enableMouse = false then ⟨self, [], some false⟩
  else if itemIsListener then ⟨self, [], some false⟩
  else
    match event with
    | QEvent.MouseButtonPress me =>
      let self := { self with m_lastEvent := some me.id }
      if (me.buttons &&& self.m_acceptedButtons) = 0 then ⟨self, [], some false⟩
      else
        let dme := me.toDeclarative (self.mapFromScene me.windowPos)
        let self := { self with m_pressAndHoldEvent := some dme,
                                m_buttonDownPos := me.screenPos, m_pressed := true }
        if me.dmeAccepted then ⟨self, [Signal.pressed dme, Signal.pressedChanged], some true⟩
        else
          ⟨{ self with timerActive := true }, [Signal.pressed dme, Signal.pressedChanged],
            some false⟩
    | QEvent.HoverMove he =>
      if self.acceptHoverEvents = false then ⟨self, [], some false⟩
      else
        let self := { self with m_lastEvent := some he.id }
        let dme := self.hoverDeclarative he (itemPos.add he.pos)
        ⟨self, [Signal.positionChanged dme], some he.dmeAccepted⟩
    | QEvent.MouseMove me =>
      let self := { self with m_lastEvent := some me.id }
      if (me.buttons &&& self.m_acceptedButtons) = 0 then ⟨self, [], some false⟩
      else
        let dme := me.toDeclarative (self.mapFromScene me.windowPos)
        let self :=
          if startDragDistance < (me.screenPos.sub self.m_buttonDownPos).manhattanLength ∧
              self.timerActive = true then
            { self with timerActive := false }
          else
            match self.m_pressAndHoldEvent with
            | some _ => { self with m_pressAndHoldEvent := some dme }
            | none => self
        ⟨self, [Signal.positionChanged dme], some me.dmeAccepted⟩
    | QEvent.MouseButtonRelease me =>
      let dme := me.toDeclarative (self.mapFromScene me.windowPos)
      let self := { self with m_lastEvent := some me.id, m_pressed := false }
      if (me.screenPos.sub self.m_buttonDownPos).manhattanLength ≤ startDragDistance ∧
          self.timerActive = true then
        ⟨{ self with timerActive := false },
          [Signal.released dme, Signal.pressedChanged, Signal.clicked dme], some me.dmeAccepted⟩
      else ⟨self, [Signal.released dme, Signal.pressedChanged], some me.dmeAccepted⟩
    | QEvent.UngrabMouse id =>
      let r := MouseEventListener.handleUngrab { self with m_lastEvent := some id }
      ⟨r.self, r.signals, some false⟩
    | QEvent.Wheel id =>
      ⟨{ self with m_lastEvent := some id }, [Signal.wheelMoved], some false⟩
    | QEvent.other _ => ⟨self, [], some false⟩

/-- The calls a listener receives: the event handlers, the child filter, the expiry
of the hold timer, the setters, and a change of the item (its enabled state and
geometry). -/
inductive ListenerCall where
  | hoverEnterEvent
  | hoverLeaveEvent
  | hoverMoveEvent (event : QHoverEvent)
  | mousePressEvent (me : QMouseEvent)
  | mouseMoveEvent (me : QMouseEvent)
  | mouseReleaseEvent (me : QMouseEvent)
  | wheelEvent (id : Nat)
  | childMouseEventFilter (itemIsListener : Bool) (itemPos : QPointF) (event : QEvent)
  | mouseUngrabEvent
  | touchUngrabEvent
  | timeout
  | setEnableMouse (enable : Bool)
  | setAcceptedButtons (buttons : Nat)
  | setHoverEnabled (enable : Bool)
  | setItem (enabled : Bool) (width height : Int) (scenePos : QPointF)
      (windowPosition : Option QPointF)
deriving DecidableEq, Repr

/-- Is the call a mouse press, delivered to the handler or seen by the child filter? -/
def ListenerCall.isPress : ListenerCall → Bool
  | ListenerCall.mousePressEvent _ => true
  | ListenerCall.childMouseEventFilter _ _ (QEvent.MouseButtonPress _) => true
  | _ => false

/-- One call on the listener. -/
def MouseEventListener.step (startDragDistance : Int) (self : MouseEventListener)
    (call : ListenerCall) : Effect :=
  match call with
  | ListenerCall.hoverEnterEvent => self.hoverEnterEvent
  | ListenerCall.hoverLeaveEvent => self.hoverLeaveEvent
  | ListenerCall.hoverMoveEvent event => self.hoverMoveEvent event
  | ListenerCall.mousePressEvent me => self.mousePressEvent me
  | ListenerCall.mouseMoveEvent me => self.mouseMoveEvent startDragDistance me
  | ListenerCall.mouseReleaseEvent me => self.mouseReleaseEvent me
  | ListenerCall.wheelEvent id => self.wheelEvent id
  | ListenerCall.childMouseEventFilter itemIsListener itemPos event =>
    self.childMouseEventFilter startDragDistance itemIsListener itemPos event
  | ListenerCall.mouseUngrabEvent => self.mouseUngrabEvent
  | ListenerCall.touchUngrabEvent => self.touchUngrabEvent
  | ListenerCall.timeout => self.timeout
  | ListenerCall.setEnableMouse enable => self.setEnableMouse enable
  | ListenerCall.setAcceptedButtons buttons => self.setAcceptedButtons buttons
  | ListenerCall.setHoverEnabled enable => self.setHoverEnabled enable
  | ListenerCall.setItem enabled width height scenePos windowPosition =>
    ⟨{ self with enabled := enabled, width := width, height := height, scenePos := scenePos,
                 windowPosition := windowPosition }, [], none⟩

/-- The signals emitted by a sequence of calls, call by call, and the listener they
leave. -/
def MouseEventListener.run (startDragDistance : Int) :
    MouseEventListener → List ListenerCall → List (List Signal) × MouseEventListener
  | self, [] => ([], self)
  | self, call :: calls =>
    let r := self.step startDragDistance call
    let rest := MouseEventListener.run startDragDistance r.self calls
    (r.signals :: rest.1, rest.2)

/-- A listener of 100 × 100 at the origin of a window at the origin of the screen. -/
def demoListener : MouseEventListener :=
  MouseEventListener.new 100 100 ⟨0, 0⟩ (some ⟨0, 0⟩)

/-- A mouse event of the left button at the point `p` of the item, the window and the
screen, with the given buttons held and no handler accepting it. -/
def leftButtonEvent (id : Nat) (p : QPointF) (buttons : Nat) : QMouseEvent :=
  { id := id, pos := p, windowPos := p, screenPos := p, button := LeftButton,
    buttons := buttons, modifiers := 0, screen := some 0, source := 0, dmeAccepted := false }

/-- An `AsyncImageProvider` after frames 1 and 2 of `/b.tif` were loaded. -/
def framesOneAndTwoLoaded : ProviderCache × ThumbnailCache :=
  [Call.requestImageResponse "file:///b.tif#frame_1" QSize.invalid,
    Call.requestImageResponse "file:///b.tif#frame_2" QSize.invalid].foldl
    (AsyncImageProvider.step demoEnv) (AsyncImageProvider.new 100, ThumbnailCache.new 100)

/-- A request for an image, made through `AsyncImageResponse::run` or through
`ImageProvider::requestImage`. -/
structure ImageRequest where
  async : Bool
  id : String
  size : Option QSize
  requestedSize : QSize
deriving DecidableEq, Repr

/-- The request served on an image cache. -/
def ImageRequest.serve (env : Env) (imageCache : ThumbnailCache) (r : ImageRequest) : Outcome :=
  if r.async then AsyncImageResponse.run env imageCache r.id r.requestedSize
  else ImageProvider.requestImage env imageCache r.id r.size r.requestedSize

/-- The image cache after a sequence of requests. -/
def serveAll (env : Env) (imageCache : ThumbnailCache) (requests : List ImageRequest) :
    ThumbnailCache :=
  requests.foldl (fun cache r => (r.serve env cache).cache) imageCache

/-! ## Lemmas on the identifier parser -/

theorem isDigit_ne_hash {c : Char} (h : isDigit c = true) : c ≠ '#' := by
  rintro rfl; revert h; decide

theorem isDigit_not_isSpace {c : Char} (h : isDigit c = true) : isSpace c = false := by
  simp only [isDigit, Bool.and_eq_true, decide_eq_true_eq, Char.le_def, UInt32.le_def] at h
  obtain ⟨h1, h2⟩ := h
  have e1 : c.toNat = c.val.val.val := rfl
  have a1 : 48 ≤ c.toNat := h1
  have a2 : c.toNat ≤ 57 := h2
  simp only [isSpace]
  simp
  omega

theorem isDigit_ne_newline {c : Char} (h : isDigit c = true) : c ≠ '\n' := by
  rintro rfl; revert h; decide

theorem isDigit_ne_minus {c : Char} (h : isDigit c = true) : c ≠ '-' := by
  rintro rfl; revert h; decide

theorem isDigit_ne_plus {c : Char} (h : isDigit c = true) : c ≠ '+' := by
  rintro rfl; revert h; decide

/-- What a match of `#frame_\d+$` at the head of the text looks like. -/
theorem matchesFrameTag_iff (cs : List Char) :
    matchesFrameTag cs = true ↔
      ∃ ds nl, cs = s_tagFrame ++ ds ++ nl ∧ ds ≠ [] ∧ (∀ c ∈ ds, isDigit c = true) ∧
        (nl = [] ∨ nl = ['\n']) := by
  constructor
  · intro h
    simp only [matchesFrameTag, Bool.and_eq_true, List.isPrefixOf_iff_prefix, Bool.not_eq_true',
      List.isEmpty_eq_false, Bool.or_eq_true, beq_iff_eq] at h
    obtain ⟨hp, hne, htl⟩ := h
    have hcs : cs = s_tagFrame ++ cs.drop s_tagFrame.length :=
      (List.prefix_iff_eq_append.mp hp).symm
    refine ⟨(cs.drop s_tagFrame.length).takeWhile isDigit,
      (cs.drop s_tagFrame.length).dropWhile isDigit, ?_, ?_, ?_, htl⟩
    · rw [List.append_assoc, List.takeWhile_append_dropWhile]; exact hcs
    · intro h0; simp [h0] at hne
    · intro c hc; exact List.mem_takeWhile_imp hc
  · rintro ⟨ds, nl, rfl, hne, hd, hnl⟩
    have hdrop : (s_tagFrame ++ ds ++ nl).drop s_tagFrame.length = ds ++ nl := by
      rw [List.append_assoc, List.drop_left]
    have hnl2 : List.takeWhile isDigit nl = [] ∧ List.dropWhile isDigit nl = nl := by
      rcases hnl with rfl | rfl
      · simp
      · constructor <;> decide
    simp only [matchesFrameTag, hdrop, List.takeWhile_append_of_pos hd,
      List.dropWhile_append_of_pos hd, hnl2.1, hnl2.2, List.append_nil]
    have hpre : s_tagFrame.isPrefixOf (s_tagFrame ++ ds ++ nl) = true := by
      rw [List.isPrefixOf_iff_prefix, List.append_assoc]; exact List.prefix_append _ _
    rw [hpre]
    cases ds with
    | nil => exact absurd rfl hne
    | cons d ds =>
      rcases hnl with rfl | rfl <;> simp

/-- A match contains exactly one `#`, its first character. -/
theorem matchesFrameTag_count {cs : List Char} (h : matchesFrameTag cs = true) :
    cs.count '#' = 1 ∧ cs.head? = some '#' := by
  obtain ⟨ds, nl, rfl, _, hd, hnl⟩ := (matchesFrameTag_iff cs).mp h
  have h1 : ds.count '#' = 0 := by
    rw [List.count_eq_zero]; intro hm; exact isDigit_ne_hash (hd _ hm) rfl
  have h2 : nl.count '#' = 0 := by
    rcases hnl with rfl | rfl <;> decide
  refine ⟨?_, ?_⟩
  · rw [List.count_append, List.count_append, h1, h2]; decide
  · simp [s_tagFrame]

/-- The pattern cannot match at two different places of the same text. -/
theorem matchesFrameTag_unique (pre rest : List Char) (hne : pre ≠ [])
    (h1 : matchesFrameTag rest = true) : matchesFrameTag (pre ++ rest) = false := by
  by_contra hcon
  have h2 : matchesFrameTag (pre ++ rest) = true := by
    cases h : matchesFrameTag (pre ++ rest) with
    | true => rfl
    | false => exact absurd h hcon
  obtain ⟨c1, _⟩ := matchesFrameTag_count h1
  obtain ⟨c2, hh⟩ := matchesFrameTag_count h2
  cases pre with
  | nil => exact hne rfl
  | cons p pre =>
    simp only [List.cons_append, List.head?_cons, Option.some.injEq] at hh
    subst hh
    rw [List.cons_append, List.count_cons_self, List.count_append, c1] at c2
    omega

/-- The scan finds the match of a text that ends with the tagged frame number. -/
theorem lastIndexOf_append (pre rest : List Char) (h : matchesFrameTag rest = true) :
    lastIndexOf (pre ++ rest) = some pre.length := by
  induction pre with
  | nil =>
    cases rest with
    | nil => exact absurd h (by decide)
    | cons r rest => simp [lastIndexOf, h]
  | cons p pre ih =>
    have hno := matchesFrameTag_unique (p :: pre) rest (by simp) h
    rw [List.cons_append] at hno ⊢
    simp [lastIndexOf, hno, ih]

/-- The scan reports only positions where the pattern matches. -/
theorem lastIndexOf_some {cs : List Char} {i : Nat} (h : lastIndexOf cs = some i) :
    i ≤ cs.length ∧ matchesFrameTag (cs.drop i) = true := by
  induction cs generalizing i with
  | nil => simp [lastIndexOf] at h
  | cons c cs ih =>
    simp only [lastIndexOf] at h
    split at h
    · rename_i hm
      cases h
      exact ⟨Nat.zero_le _, by simpa using hm⟩
    · cases hl : lastIndexOf cs with
      | none => simp [hl] at h
      | some j =>
        simp [hl] at h
        subst h
        obtain ⟨a, b⟩ := ih hl
        exact ⟨by simpa using a, by simpa using b⟩

/-- The split found by `splitFrameSuffix` is a split of the text. -/
theorem splitFrameSuffix_some {cs pre ds : List Char}
    (h : splitFrameSuffix cs = some (pre, ds)) :
    cs = pre ++ s_tagFrame ++ ds ∧ ds ≠ [] ∧ ∀ c ∈ ds, isDigit c = true := by
  simp only [splitFrameSuffix] at h
  split at h
  · rename_i hc
    simp only [Bool.and_eq_true, Bool.not_eq_true', List.isEmpty_eq_false,
      List.isPrefixOf_iff_prefix, List.reverse_reverse] at hc
    obtain ⟨hne, hp⟩ := hc
    simp only [Option.some.injEq, Prod.mk.injEq] at h
    obtain ⟨hpre, hds⟩ := h
    obtain ⟨r, hr⟩ := hp
    have hsplit := List.takeWhile_append_dropWhile isDigit cs.reverse
    have hdw : (cs.reverse.dropWhile isDigit).reverse = r.reverse ++ s_tagFrame := by
      rw [← hr]; simp
    have hcs : cs = (cs.reverse.dropWhile isDigit).reverse ++
        (cs.reverse.takeWhile isDigit).reverse := by
      rw [← List.reverse_append, hsplit, List.reverse_reverse]
    refine ⟨?_, ?_, ?_⟩
    · rw [← hpre, ← hds, hdw]
      simp only [List.length_append, Nat.add_sub_cancel, List.take_left]
      rw [← hdw]; exact hcs
    · rw [← hds]; intro h0; simp [h0] at hne
    · intro c hc
      rw [← hds, List.mem_reverse] at hc
      exact List.mem_takeWhile_imp hc
  · cases h

/-- A text that ends with the tag and a frame number is split there. -/
theorem splitFrameSuffix_append (pre ds : List Char) (hne : ds ≠ [])
    (hd : ∀ c ∈ ds, isDigit c = true) :
    splitFrameSuffix (pre ++ s_tagFrame ++ ds) = some (pre, ds) := by
  have hd2 : ∀ c ∈ ds.reverse, isDigit c = true := fun c hc => hd c (List.mem_reverse.mp hc)
  have hrev : (pre ++ s_tagFrame ++ ds).reverse =
      ds.reverse ++ ('_' :: (['e', 'm', 'a', 'r', 'f', '#'] ++ pre.reverse)) := by
    simp [s_tagFrame]
  have htw : (pre ++ s_tagFrame ++ ds).reverse.takeWhile isDigit = ds.reverse := by
    rw [hrev, List.takeWhile_append_of_pos hd2, List.takeWhile_cons_of_neg (by decide)]
    simp
  have hdw : (pre ++ s_tagFrame ++ ds).reverse.dropWhile isDigit =
      s_tagFrame.reverse ++ pre.reverse := by
    rw [hrev, List.dropWhile_append_of_pos hd2, List.dropWhile_cons_of_neg (by decide)]
    simp [s_tagFrame]
  simp only [splitFrameSuffix, htw, hdw, List.reverse_reverse]
  have hp : s_tagFrame.reverse.isPrefixOf (s_tagFrame.reverse ++ pre.reverse) = true := by
    rw [List.isPrefixOf_iff_prefix]; exact List.prefix_append _ _
  have hemp : ds.isEmpty = false := by
    cases ds with
    | nil => exact absurd rfl hne
    | cons _ _ => rfl
  simp [hp, hemp]

/-- Dropping the final line feed of a text that ends with a frame number. -/
theorem dropFinalNewline_append (body nl : List Char) (hlast : ∃ b d, body = b ++ [d] ∧ d ≠ '\n')
    (hnl : nl = [] ∨ nl = ['\n']) : dropFinalNewline (body ++ nl) = body := by
  obtain ⟨b, d, rfl, hd⟩ := hlast
  rcases hnl with rfl | rfl
  · simp only [dropFinalNewline, List.append_nil, List.getLast?_concat, Option.some.injEq]
    rw [if_neg hd]
  · simp only [dropFinalNewline, List.getLast?_concat, List.dropLast_concat, if_true]

/-- A text is its version without the final line feed, followed by nothing or by a
line feed. -/
theorem dropFinalNewline_split (cs : List Char) :
    ∃ nl, cs = dropFinalNewline cs ++ nl ∧ (nl = [] ∨ nl = ['\n']) := by
  unfold dropFinalNewline
  split
  · rename_i h
    exact ⟨['\n'], (List.dropLast_append_getLast? _ h).symm, Or.inr rfl⟩
  · exact ⟨[], by simp, Or.inl rfl⟩

/-- A list none of whose ends is white space is left alone by the trimming of
`toInt`. -/
theorem dropWhile_isSpace_digits (ds : List Char) (hd : ∀ c ∈ ds, isDigit c = true) :
    ds.dropWhile isSpace = ds := by
  cases ds with
  | nil => rfl
  | cons d ds =>
    apply List.dropWhile_cons_of_neg
    rw [isDigit_not_isSpace (hd d (List.mem_cons_self _ _))]; simp

/-- The conversion of a frame number, possibly followed by the final line feed. -/
theorem toInt_digits (ds nl : List Char) (hne : ds ≠ []) (hd : ∀ c ∈ ds, isDigit c = true)
    (hnl : nl = [] ∨ nl = ['\n']) :
    toInt (ds ++ nl) = if digitsValue ds ≤ 2147483647 then (digitsValue ds : Int) else 0 := by
  have hd2 : ∀ c ∈ ds.reverse, isDigit c = true := fun c hc => hd c (List.mem_reverse.mp hc)
  have h1 : (ds ++ nl).dropWhile isSpace = ds ++ nl := by
    cases ds with
    | nil => exact absurd rfl hne
    | cons d ds =>
      apply List.dropWhile_cons_of_neg
      rw [isDigit_not_isSpace (hd d (List.mem_cons_self _ _))]; simp
  have h2 : ((ds ++ nl).reverse.dropWhile isSpace).reverse = ds := by
    rw [List.reverse_append]
    have : (nl.reverse ++ ds.reverse).dropWhile isSpace = ds.reverse.dropWhile isSpace := by
      rcases hnl with rfl | rfl
      · simp
      · apply List.dropWhile_append_of_pos
        decide
    rw [this, dropWhile_isSpace_digits _ hd2, List.reverse_reverse]
  have hall : ds.all isDigit = true := by
    rw [List.all_eq_true]; exact hd
  cases ds with
  | nil => exact absurd rfl hne
  | cons d ds =>
    have hdd := hd d (List.mem_cons_self _ _)
    have hm := isDigit_ne_minus hdd
    have hp := isDigit_ne_plus hdd
    simp only [toInt, h1, h2]
    have hb : (match d :: ds with
        | '-' :: ds => ds
        | '+' :: ds => ds
        | ds => ds) = d :: ds := by
      split
      · rename_i heq; cases heq; exact absurd rfl hm
      · rename_i heq; cases heq; exact absurd rfl hp
      · rfl
    have hv : (match d :: ds with
        | '-' :: _ => -(digitsValue (d :: ds) : Int)
        | _ => (digitsValue (d :: ds) : Int)) = (digitsValue (d :: ds) : Int) := by
      split
      · rename_i heq; cases heq; exact absurd rfl hm
      · rfl
    rw [hb, hv, hall]
    have hnn : (-2147483648 : Int) ≤ (digitsValue (d :: ds) : Int) := by
      have := Int.natCast_nonneg (digitsValue (d :: ds)); omega
    simp only [List.isEmpty_cons, Bool.not_true, Bool.or_self, Bool.false_eq_true, if_false,
      hnn, true_and]
    by_cases hle : digitsValue (d :: ds) ≤ 2147483647
    · have : (digitsValue (d :: ds) : Int) ≤ 2147483647 := by exact_mod_cast hle
      rw [if_pos this, if_pos hle]
    · have : ¬ (digitsValue (d :: ds) : Int) ≤ 2147483647 := by
        intro h; apply hle; exact_mod_cast h
      rw [if_neg this, if_neg hle]

/-- The text after position `pre.length + 7` of a tagged identifier. -/
theorem right_of_tagged (pre ds nl : List Char) :
    (pre ++ (s_tagFrame ++ ds ++ nl)).drop
      ((pre ++ (s_tagFrame ++ ds ++ nl)).length -
        ((pre ++ (s_tagFrame ++ ds ++ nl)).length - pre.length - s_tagFrame.length)) =
      ds ++ nl := by
  have hlen : (pre ++ (s_tagFrame ++ ds ++ nl)).length -
      ((pre ++ (s_tagFrame ++ ds ++ nl)).length - pre.length - s_tagFrame.length) =
      (pre ++ s_tagFrame).length := by
    simp only [List.length_append]; omega
  rw [hlen]
  have : pre ++ (s_tagFrame ++ ds ++ nl) = (pre ++ s_tagFrame) ++ (ds ++ nl) := by
    simp [List.append_assoc]
  rw [this, List.drop_left]

/-- C1 (amended): for every conversion `toLocalFile` and every identifier,
`parseProviderID` computes the amended reference definition: when `id` — a line
feed that is its last character being disregarded — ends with `#frame_` followed by
one or more ASCII digits of value N, the path is the conversion of the part of
`id` before that tag and the frame index is N when N fits in a signed 32-bit
`int` and 0 when it does not; otherwise the path is the conversion of the whole
`id` and the frame index is 0. -/
theorem parseProviderID_eq_amended (toLocalFile : String → String) (id : String) :
    parseProviderID toLocalFile id = parseProviderID_amended toLocalFile id := by
  obtain ⟨nl, hcs, hnl⟩ := dropFinalNewline_split id.data
  unfold parseProviderID parseProviderID_amended
  cases hs : splitFrameSuffix (dropFinalNewline id.data) with
  | some pd =>
    obtain ⟨pre, ds⟩ := pd
    obtain ⟨hbody, hne, hd⟩ := splitFrameSuffix_some hs
    have hm : matchesFrameTag (s_tagFrame ++ ds ++ nl) = true :=
      (matchesFrameTag_iff _).mpr ⟨ds, nl, rfl, hne, hd, hnl⟩
    have hid : id.data = pre ++ (s_tagFrame ++ ds ++ nl) := by
      rw [hcs, hbody]; simp [List.append_assoc]
    have hidx : lastIndexOf id.data = some pre.length := by
      rw [hid]; exact lastIndexOf_append pre _ hm
    simp only [hidx]
    have htake : id.data.take pre.length = pre := by
      rw [hid, List.take_left]
    have hdrop := right_of_tagged pre ds nl
    rw [← hid] at hdrop
    rw [htake, hdrop, toInt_digits ds nl hne hd hnl]
  | none =>
    cases hi : lastIndexOf id.data with
    | none => rfl
    | some i =>
      exfalso
      obtain ⟨_, hmatch⟩ := lastIndexOf_some hi
      obtain ⟨ds, nl2, hdrop, hne, hd, hnl2⟩ := (matchesFrameTag_iff _).mp hmatch
      have hid : id.data = (id.data.take i ++ s_tagFrame ++ ds) ++ nl2 := by
        conv_lhs => rw [← List.take_append_drop i id.data, hdrop]
        simp [List.append_assoc]
      have hlast : ∃ b d, id.data.take i ++ s_tagFrame ++ ds = b ++ [d] ∧ d ≠ '\n' := by
        obtain ⟨ds0, dl, hdl⟩ : ∃ ds0 dl, ds = ds0 ++ [dl] :=
          ⟨ds.dropLast, ds.getLast hne, (List.dropLast_append_getLast hne).symm⟩
        refine ⟨id.data.take i ++ s_tagFrame ++ ds0, dl, ?_, ?_⟩
        · rw [hdl]; simp [List.append_assoc]
        · apply isDigit_ne_newline
          apply hd; rw [hdl]; simp
      have hbody := dropFinalNewline_append _ nl2 hlast hnl2
      rw [← hid] at hbody
      rw [hbody, splitFrameSuffix_append _ ds hne hd] at hs
      cases hs

/-- C1 (counterexample): on `"file:///home/tmp.tif#frame_3\n"` the pattern
`#frame_\d+$` matches before the final line feed, so the parser yields frame
index 3, while the reference definition, for which this identifier does not end
with digits, yields frame index 0. -/
theorem parseProviderID_ne_spec :
    parseProviderID localFileOfUrl "file:///home/tmp.tif#frame_3\n" = ("/home/tmp.tif", 3) ∧
      parseProviderID_spec localFileOfUrl "file:///home/tmp.tif#frame_3\n" =
        ("/home/tmp.tif", 0) ∧
      parseProviderID localFileOfUrl "file:///home/tmp.tif#frame_3\n" ≠
        parseProviderID_spec localFileOfUrl "file:///home/tmp.tif#frame_3\n" := by
  decide

/-! ## Requests: cache lookup, decoding and resizing -/

/-- C2: for `ImageProvider::requestImage` and `AsyncImageResponse::run`, with the
identifier parsed to `(path, frame)`: when the cache holds a non-null image under
`(path, frame)` that image is the one used (it is what gets resized and handed
back), no file is decoded and the cache is left as it was; otherwise exactly one
file is decoded — by the multi-frame reader when `frame ≠ 0`, by the static loader
when `frame = 0` — and the decoded image itself, null or not, is added to the
cache under `(path, frame)`, the resizing being applied only to what is handed
back. -/
theorem request_cache_hit_or_decode (env : Env) (imageCache : ThumbnailCache) (id : String)
    (size : Option QSize) (requestedSize : QSize) :
    let path := (parseProviderID env.toLocalFile id).1
    let frame := (parseProviderID env.toLocalFile id).2
    let cached := imageCache.get path frame
    let resized := fun (image : QImage) =>
      if (!image.isNull && image.size != requestedSize && requestedSize.isValid) = true then
        image.scaled env requestedSize AspectRatioMode.IgnoreAspectRatio
          TransformationMode.FastTransformation
      else image
    ∀ r ∈ [ImageProvider.requestImage env imageCache id size requestedSize,
        AsyncImageResponse.run env imageCache id requestedSize],
      (cached.isNull = false →
        r.image = resized cached ∧ r.decoded = [] ∧ r.cache = imageCache) ∧
      (cached.isNull = true → frame ≠ 0 →
        r.image = resized (readMultiImage env path frame) ∧
        r.decoded = [Decoded.multiFrameReader path frame] ∧
        r.cache = imageCache.add path frame (readMultiImage env path frame)) ∧
      (cached.isNull = true → frame = 0 →
        r.image = resized (readNormalImage env path) ∧
        r.decoded = [Decoded.staticLoader path] ∧
        r.cache = imageCache.add path 0 (readNormalImage env path)) := by
  intro path frame cached resized r hr
  have hpf : parseProviderID env.toLocalFile id = (path, frame) := rfl
  simp only [List.mem_cons, List.mem_singleton, List.not_mem_nil, or_false] at hr
  rcases hr with rfl | rfl
  · refine ⟨?_, ?_, ?_⟩
    · intro hc
      have hc' : (imageCache.get path frame).isNull = false := hc
      simp [ImageProvider.requestImage, hpf, hc', resized, cached]
    · intro hc hf
      have hc' : (imageCache.get path frame).isNull = true := hc
      simp [ImageProvider.requestImage, hpf, hc', hf, resized]
    · intro hc hf
      have hc' : (imageCache.get path 0).isNull = true := by rw [← hf]; exact hc
      simp [ImageProvider.requestImage, hpf, hc', hf, resized]
  · refine ⟨?_, ?_, ?_⟩
    · intro hc
      have hc' : (imageCache.get path frame).isNull = false := hc
      simp [AsyncImageResponse.run, hpf, hc', resized, cached]
    · intro hc hf
      have hc' : (imageCache.get path frame).isNull = true := hc
      simp [AsyncImageResponse.run, hpf, hc', hf, resized]
    · intro hc hf
      have hc' : (imageCache.get path 0).isNull = true := by rw [← hf]; exact hc
      simp [AsyncImageResponse.run, hpf, hc', hf, resized]

/-- `QSize::scaled` with `IgnoreAspectRatio` is the target size. -/
theorem QSize.scaled_ignore (self s : QSize) :
    self.scaled s AspectRatioMode.IgnoreAspectRatio = s := by
  simp [QSize.scaled]

/-- `QImage::scaled` to a non-empty size, aspect ratio ignored, yields that size. -/
theorem QImage.size_scaled (env : Env) (img : QImage) (s : QSize) (mode : TransformationMode)
    (hn : img.isNull = false) (he : s.isEmpty = false) :
    (img.scaled env s AspectRatioMode.IgnoreAspectRatio mode).size = s := by
  obtain ⟨w, h⟩ := s
  have he' := he
  simp only [QSize.isEmpty, Bool.or_eq_false_iff, decide_eq_false_iff_not, not_lt] at he'
  obtain ⟨hw, hh⟩ := he'
  have hmw : max w 1 = w := max_eq_left hw
  have hmh : max h 1 = h := max_eq_left hh
  simp only [QImage.scaled, hn, he, QSize.scaled_ignore, hmw, hmh, Bool.false_eq_true,
    if_false]
  split
  · rename_i h; exact h.symm
  · have h1 : w.toNat ≠ 0 := by omega
    have h2 : h.toNat ≠ 0 := by omega
    simp only [QImage.size, QImage.isNull, Bool.or_eq_true, beq_iff_eq, h1, h2, or_self,
      if_false, QSize.mk.injEq]
    constructor <;> omega

/-- `QImage::scaled` to an empty size yields a null image. -/
theorem QImage.isNull_scaled_empty (env : Env) (img : QImage) (s : QSize)
    (aspectMode : AspectRatioMode) (mode : TransformationMode) (he : s.isEmpty = true) :
    (img.scaled env s aspectMode mode).isNull = true := by
  simp only [QImage.scaled, he, if_true]
  split <;> rfl

/-- The size of an image that is not null is not empty. -/
theorem QImage.size_not_empty (img : QImage) (hn : img.isNull = false) :
    img.size.isEmpty = false := by
  simp only [QImage.isNull, Bool.or_eq_false_iff, beq_eq_false_iff_ne, ne_eq] at hn
  have hn' : img.isNull = false := by
    simp only [QImage.isNull, Bool.or_eq_false_iff, beq_eq_false_iff_ne, ne_eq]; exact hn
  simp only [QImage.size, hn', Bool.false_eq_true, if_false, QSize.isEmpty,
    Bool.or_eq_false_iff, decide_eq_false_iff_not, not_lt]
  omega

/-- The resizing step shared by the providers, as a function of the image found or
decoded. -/
theorem resize_step (env : Env) (image : QImage) (requestedSize : QSize) :
    let result :=
      if (!image.isNull && image.size != requestedSize && requestedSize.isValid) = true then
        image.scaled env requestedSize AspectRatioMode.IgnoreAspectRatio
          TransformationMode.FastTransformation
      else image
    (image.isNull = false → requestedSize.isValid = true → requestedSize.isEmpty = false →
        result.size = requestedSize) ∧
      (image.isNull = false → requestedSize.isValid = true → requestedSize.isEmpty = true →
        result.isNull = true) ∧
      (image.isNull = false → requestedSize.isValid = false → result = image) ∧
      (image.isNull = true → result = image) := by
  intro result
  refine ⟨?_, ?_, ?_, ?_⟩
  · intro hn hv he
    by_cases hs : image.size = requestedSize
    · simp [result, hs]
    · simp only [result, hn, hv, Bool.not_false, Bool.true_and, Bool.and_true, bne_iff_ne, ne_eq,
        hs, not_false_eq_true, if_true]
      exact QImage.size_scaled env image requestedSize _ hn he
  · intro hn hv he
    have hs : image.size ≠ requestedSize := by
      intro h
      have := QImage.size_not_empty image hn
      rw [h, he] at this
      cases this
    simp only [result, hn, hv, Bool.not_false, Bool.true_and, Bool.and_true, bne_iff_ne, ne_eq,
      hs, not_false_eq_true, if_true]
    exact QImage.isNull_scaled_empty env image requestedSize _ _ he
  · intro _ hv
    simp [result, hv]
  · intro hn
    simp [result, hn]

/-- The image handed back by `ImageProvider::requestImage` is the loaded image after
the resizing step. -/
theorem ImageProvider.requestImage_image (env : Env) (imageCache : ThumbnailCache)
    (id : String) (size : Option QSize) (requestedSize : QSize) :
    (ImageProvider.requestImage env imageCache id size requestedSize).image =
      if (!(loadedImage env imageCache id).isNull &&
          (loadedImage env imageCache id).size != requestedSize &&
          requestedSize.isValid) = true then
        (loadedImage env imageCache id).scaled env requestedSize
          AspectRatioMode.IgnoreAspectRatio TransformationMode.FastTransformation
      else loadedImage env imageCache id := by
  rcases hpf : parseProviderID env.toLocalFile id with ⟨path, frame⟩
  cases hc : (imageCache.get path frame).isNull <;>
    simp [ImageProvider.requestImage, loadedImage, hpf, hc]

/-- The image of `AsyncImageResponse::run` is the loaded image after the resizing
step. -/
theorem AsyncImageResponse.run_image (env : Env) (imageCache : ThumbnailCache)
    (id : String) (requestedSize : QSize) :
    (AsyncImageResponse.run env imageCache id requestedSize).image =
      if (!(loadedImage env imageCache id).isNull &&
          (loadedImage env imageCache id).size != requestedSize &&
          requestedSize.isValid) = true then
        (loadedImage env imageCache id).scaled env requestedSize
          AspectRatioMode.IgnoreAspectRatio TransformationMode.FastTransformation
      else loadedImage env imageCache id := by
  rcases hpf : parseProviderID env.toLocalFile id with ⟨path, frame⟩
  cases hc : (imageCache.get path frame).isNull <;>
    simp [AsyncImageResponse.run, loadedImage, hpf, hc]

/-- C3 (amended): for `ImageProvider::requestImage` and `AsyncImageResponse::run`, when
the image found in the cache or decoded is not null: a valid `requestedSize` with
both dimensions at least 1 gives an image of exactly that size, a valid
`requestedSize` with a dimension equal to 0 gives a null image, and an invalid
`requestedSize` gives the cached or decoded image unchanged; when that image is
null, it is handed back as it is, whatever `requestedSize`. -/
theorem request_resize (env : Env) (imageCache : ThumbnailCache) (id : String)
    (size : Option QSize) (requestedSize : QSize) :
    let image := loadedImage env imageCache id
    ∀ r ∈ [ImageProvider.requestImage env imageCache id size requestedSize,
        AsyncImageResponse.run env imageCache id requestedSize],
      (image.isNull = false → requestedSize.isValid = true → requestedSize.isEmpty = false →
        r.image.size = requestedSize) ∧
      (image.isNull = false → requestedSize.isValid = true → requestedSize.isEmpty = true →
        r.image.isNull = true) ∧
      (image.isNull = false → requestedSize.isValid = false → r.image = image) ∧
      (image.isNull = true → r.image = image ∧ r.image.isNull = true) := by
  intro image r hr
  have hstep := resize_step env image requestedSize
  have himg : r.image =
      if (!image.isNull && image.size != requestedSize && requestedSize.isValid) = true then
        image.scaled env requestedSize AspectRatioMode.IgnoreAspectRatio
          TransformationMode.FastTransformation
      else image := by
    simp only [List.mem_cons, List.mem_singleton, List.not_mem_nil, or_false] at hr
    rcases hr with rfl | rfl
    · exact ImageProvider.requestImage_image env imageCache id size requestedSize
    · exact AsyncImageResponse.run_image env imageCache id requestedSize
  rw [himg]
  obtain ⟨h1, h2, h3, h4⟩ := hstep
  refine ⟨h1, h2, h3, ?_⟩
  intro hn
  have := h4 hn
  exact ⟨this, by rw [this]; exact hn⟩

/-- C3 (counterexample): `/a.png` decodes to a 400 × 200 image and the size
`(100, 0)` is valid, yet both requests hand back the null image, whose size is
`(0, 0)`, not `(100, 0)`. -/
theorem request_resize_zero_dimension :
    (loadedImage demoEnv (ThumbnailCache.new 4) "file:///a.png").isNull = false ∧
      QSize.isValid ⟨100, 0⟩ = true ∧
      (ImageProvider.requestImage demoEnv (ThumbnailCache.new 4) "file:///a.png" none
        ⟨100, 0⟩).image.size ≠ ⟨100, 0⟩ ∧
      (AsyncImageResponse.run demoEnv (ThumbnailCache.new 4) "file:///a.png"
        ⟨100, 0⟩).image.size ≠ ⟨100, 0⟩ := by
  decide

/-! ## The bound of the image cache -/

theorem ThumbnailCache.maxCost_add (c : ThumbnailCache) (path : String) (frameIndex : Int)
    (image : QImage) : (c.add path frameIndex image).maxCost = c.maxCost := rfl

theorem ThumbnailCache.maxCost_remove (c : ThumbnailCache) (path : String) (frameIndex : Int) :
    (c.remove path frameIndex).maxCost = c.maxCost := rfl

theorem ThumbnailCache.bounded_add (c : ThumbnailCache) (path : String) (frameIndex : Int)
    (image : QImage) (h : c.keys.Nodup) : (c.add path frameIndex image).Bounded := by
  constructor
  · simp only [ThumbnailCache.add, List.length_take]
    exact Nat.min_le_left _ _
  · have hsub : List.Sublist
        (((((path, frameIndex), image) ::
          c.entries.filter (fun e => e.1 != (path, frameIndex))).take c.maxCost).map
          (fun e => e.1))
        (((((path, frameIndex), image) ::
          c.entries.filter (fun e => e.1 != (path, frameIndex)))).map (fun e => e.1)) :=
      (List.take_sublist _ _).map _
    refine List.Nodup.sublist hsub ?_
    rw [List.map_cons, List.nodup_cons]
    constructor
    · intro hm
      rw [List.mem_map] at hm
      obtain ⟨e, he, hk⟩ := hm
      rw [List.mem_filter] at he
      simp [hk] at he
    · exact List.Nodup.sublist ((List.filter_sublist _).map _) h

theorem ThumbnailCache.bounded_remove (c : ThumbnailCache) (path : String) (frameIndex : Int)
    (h : c.Bounded) : (c.remove path frameIndex).Bounded := by
  constructor
  · exact le_trans (List.length_filter_le _ _) h.1
  · exact List.Nodup.sublist ((List.filter_sublist _).map _) h.2

theorem ThumbnailCache.bounded_setMaxCost (c : ThumbnailCache) (maxCost : Nat)
    (h : c.keys.Nodup) : (c.setMaxCost maxCost).Bounded := by
  constructor
  · simp only [ThumbnailCache.setMaxCost, List.length_take]
    exact Nat.min_le_left _ _
  · exact List.Nodup.sublist ((List.take_sublist _ _).map _) h

/-- The removal loop keeps the capacity and the bound. -/
theorem foldl_remove_bounded (imagePath : String) (keys : List Key) (c : ThumbnailCache)
    (h : c.Bounded) :
    (keys.foldl (fun cache key => if key.1 = imagePath then cache.remove key.1 key.2 else cache)
        c).Bounded ∧
      (keys.foldl (fun cache key => if key.1 = imagePath then cache.remove key.1 key.2 else cache)
        c).maxCost = c.maxCost := by
  induction keys generalizing c with
  | nil => exact ⟨h, rfl⟩
  | cons k ks ih =>
    simp only [List.foldl_cons]
    by_cases hk : k.1 = imagePath
    · rw [if_pos hk]
      have := ih (c.remove k.1 k.2) (c.bounded_remove _ _ h)
      exact ⟨this.1, this.2.trans rfl⟩
    · rw [if_neg hk]; exact ih c h

/-- A response leaves the image cache bounded, with the capacity it had. -/
theorem AsyncImageResponse.run_bounded (env : Env) (imageCache : ThumbnailCache) (id : String)
    (requestedSize : QSize) (h : imageCache.Bounded) :
    (AsyncImageResponse.run env imageCache id requestedSize).cache.Bounded ∧
      (AsyncImageResponse.run env imageCache id requestedSize).cache.maxCost =
        imageCache.maxCost := by
  rcases hpf : parseProviderID env.toLocalFile id with ⟨path, frame⟩
  cases hc : (imageCache.get path frame).isNull
  · simp [AsyncImageResponse.run, hpf, hc, h]
  · simp only [AsyncImageResponse.run, hpf, hc, if_true]
    exact ⟨imageCache.bounded_add _ _ _ h.2, rfl⟩

/-- A rotation leaves the image cache bounded, with the capacity it had. -/
theorem ProviderCache.rotateImageCached_bounded (env : Env) (angle : Int) (imagePath : String)
    (frameIndex : Int) (self : ProviderCache) (thumbnails : ThumbnailCache)
    (h : self.imageCache.Bounded) :
    (self.rotateImageCached env angle imagePath frameIndex thumbnails).1.imageCache.Bounded ∧
      (self.rotateImageCached env angle imagePath frameIndex thumbnails).1.imageCache.maxCost =
        self.imageCache.maxCost := by
  unfold ProviderCache.rotateImageCached
  by_cases ha : angle = 0
  · simp [ha, h]
  · simp only [ha, if_false]
    by_cases hp : imagePath = self.lastRotatePath
    · simp only [ne_eq, hp, not_true_eq_false, if_false]
      split
      · exact ⟨ThumbnailCache.bounded_add _ _ _ _ h.2, rfl⟩
      · exact ⟨h, rfl⟩
    · simp only [ne_eq, hp, not_false_eq_true, if_true]
      split
      · exact ⟨ThumbnailCache.bounded_add _ _ _ _ h.2, rfl⟩
      · exact ⟨h, rfl⟩

/-- Every call on an `AsyncImageProvider` keeps the capacity and the bound. -/
theorem AsyncImageProvider.step_bounded (env : Env) (st : ProviderCache × ThumbnailCache)
    (call : Call) (h : st.1.imageCache.Bounded) :
    (AsyncImageProvider.step env st call).1.imageCache.Bounded ∧
      (AsyncImageProvider.step env st call).1.imageCache.maxCost = st.1.imageCache.maxCost := by
  cases call with
  | requestImageResponse id requestedSize =>
    exact AsyncImageResponse.run_bounded env st.1.imageCache id requestedSize h
  | preloadImage filePath =>
    exact AsyncImageResponse.run_bounded env st.1.imageCache filePath QSize.invalid h
  | rotateImageCached angle imagePath frameIndex =>
    exact ProviderCache.rotateImageCached_bounded env angle imagePath frameIndex st.1 st.2 h
  | removeImageCache imagePath =>
    exact foldl_remove_bounded imagePath st.1.imageCache.keys st.1.imageCache h
  | clearCache =>
    exact ⟨⟨Nat.zero_le _, List.nodup_nil⟩, rfl⟩

/-- The bound and the capacity 4 hold after any sequence of calls. -/
theorem AsyncImageProvider.foldl_bounded (env : Env) (calls : List Call)
    (st : ProviderCache × ThumbnailCache) (h : st.1.imageCache.Bounded)
    (h4 : st.1.imageCache.maxCost = 4) :
    (calls.foldl (AsyncImageProvider.step env) st).1.imageCache.Bounded ∧
      (calls.foldl (AsyncImageProvider.step env) st).1.imageCache.maxCost = 4 := by
  induction calls generalizing st with
  | nil => exact ⟨h, h4⟩
  | cons call calls ih =>
    have hs := AsyncImageProvider.step_bounded env st call h
    exact ih _ hs.1 (hs.2.trans h4)

/-- C4: the image cache of an `AsyncImageProvider` has capacity 4: after construction
and after any sequence of image requests, preloads, rotations, removals and
clears, its keys `(path, frame)` are all different and there are at most 4 of
them. -/
theorem asyncImageProvider_cache_bounded (env : Env) (defaultMaxCost : Nat)
    (thumbnails : ThumbnailCache) (calls : List Call) :
    let self := (calls.foldl (AsyncImageProvider.step env)
      (AsyncImageProvider.new defaultMaxCost, thumbnails)).1
    self.imageCache.maxCost = 4 ∧ self.imageCache.keys.Nodup ∧
      self.imageCache.keys.length ≤ 4 := by
  intro self
  have h0 : (AsyncImageProvider.new defaultMaxCost).imageCache.Bounded :=
    ⟨Nat.zero_le _, List.nodup_nil⟩
  have h := AsyncImageProvider.foldl_bounded env calls
    (AsyncImageProvider.new defaultMaxCost, thumbnails) h0 rfl
  refine ⟨h.2, h.1.2, ?_⟩
  have hlen := h.1.1
  rw [h.2] at hlen
  simpa [ThumbnailCache.keys] using hlen

/-! ## Rotation of a cached image -/

/-- An image added to a cache of capacity at least 1 is what its key then holds. -/
theorem ThumbnailCache.get_add (c : ThumbnailCache) (path : String) (frameIndex : Int)
    (image : QImage) (h : 0 < c.maxCost) : (c.add path frameIndex image).get path frameIndex = image := by
  obtain ⟨m, hm⟩ : ∃ m, c.maxCost = m + 1 := ⟨c.maxCost - 1, by omega⟩
  simp [ThumbnailCache.add, ThumbnailCache.get, hm, List.take_succ_cons]

/-- The test `lastRotation % 360` of the program is divisibility by 360. -/
theorem tmod_360_ne_zero_iff (x : Int) : x.tmod 360 ≠ 0 ↔ ¬ (360 : Int) ∣ x :=
  ⟨fun h hd => h (Int.tmod_eq_zero_of_dvd hd), fun h hz => h (Int.dvd_of_tmod_eq_zero hz)⟩

/-- A value in the range of `int` is not changed by the wrap-around. -/
theorem wrapInt32_of_range (x : Int) (h1 : -2147483648 ≤ x) (h2 : x ≤ 2147483647) :
    wrapInt32 x = x := by
  unfold wrapInt32
  omega

/-- While every partial sum stays in the range of `int`, the accumulated angle is the
sum of the angles. -/
theorem accumulateRotation_eq_sum (angles : List Int) (start : Int)
    (h : ∀ n, -2147483648 ≤ start + (angles.take n).sum ∧
      start + (angles.take n).sum ≤ 2147483647) :
    accumulateRotation start angles = start + angles.sum := by
  induction angles generalizing start with
  | nil => simp [accumulateRotation]
  | cons a rest ih =>
    have h1 := h 1
    simp only [List.take_succ_cons, List.take_zero, List.sum_cons, List.sum_nil, add_zero] at h1
    have hw : wrapInt32 (start + a) = start + a := wrapInt32_of_range _ h1.1 h1.2
    have hrest : ∀ n, -2147483648 ≤ (start + a) + (rest.take n).sum ∧
        (start + a) + (rest.take n).sum ≤ 2147483647 := by
      intro n
      have := h (n + 1)
      simp only [List.take_succ_cons, List.sum_cons] at this
      constructor <;> omega
    have := ih (start + a) hrest
    simp only [accumulateRotation, List.foldl_cons, hw, List.sum_cons] at this ⊢
    rw [this]
    omega

/-- One further rotation of the recorded path: the recorded image is rotated by the
accumulated angle, the `int` sum of the recorded angle and the new one. -/
theorem ProviderCache.rotateImageCached_again (env : Env) (angle : Int) (imagePath : String)
    (frameIndex : Int) (self : ProviderCache) (thumbnails : ThumbnailCache)
    (ha : angle ≠ 0) (hp : self.lastRotatePath = imagePath)
    (hn : self.lastRotateImage.isNull = false) (hcap : 0 < self.imageCache.maxCost) :
    let next := (self.rotateImageCached env angle imagePath frameIndex thumbnails).1
    next.lastRotatePath = imagePath ∧ next.lastRotateImage = self.lastRotateImage ∧
      next.lastRotation = wrapInt32 (self.lastRotation + angle) ∧
      next.imageCache.maxCost = self.imageCache.maxCost ∧
      next.imageCache.get imagePath frameIndex =
        (if (360 : Int) ∣ wrapInt32 (self.lastRotation + angle) then self.lastRotateImage
          else env.rotateImage (wrapInt32 (self.lastRotation + angle))
            self.lastRotateImage) := by
  intro next
  have hnext : next = { self with
      lastRotation := wrapInt32 (self.lastRotation + angle),
      imageCache := self.imageCache.add imagePath frameIndex
        (if (wrapInt32 (self.lastRotation + angle)).tmod 360 ≠ 0 then
          env.rotateImage (wrapInt32 (self.lastRotation + angle)) self.lastRotateImage
         else self.lastRotateImage) } := by
    simp [next, ProviderCache.rotateImageCached, ha, hp, hn]
  rw [hnext]
  refine ⟨hp, rfl, rfl, rfl, ?_⟩
  simp only
  rw [ThumbnailCache.get_add _ _ _ _ hcap]
  by_cases hd : (360 : Int) ∣ wrapInt32 (self.lastRotation + angle)
  · rw [if_pos hd, if_neg (by rw [tmod_360_ne_zero_iff]; exact not_not.mpr hd)]
  · rw [if_neg hd, if_pos ((tmod_360_ne_zero_iff _).mpr hd)]

/-- The first rotation of a path that the record does not name: the cached image is
recorded and rotated by the angle. -/
theorem ProviderCache.rotateImageCached_first (env : Env) (angle : Int) (imagePath : String)
    (frameIndex : Int) (self : ProviderCache) (thumbnails : ThumbnailCache)
    (ha : angle ≠ 0) (hp : self.lastRotatePath ≠ imagePath)
    (hn : (self.imageCache.get imagePath frameIndex).isNull = false)
    (hcap : 0 < self.imageCache.maxCost) :
    let next := (self.rotateImageCached env angle imagePath frameIndex thumbnails).1
    next.lastRotatePath = imagePath ∧
      next.lastRotateImage = self.imageCache.get imagePath frameIndex ∧
      next.lastRotation = angle ∧
      next.imageCache.maxCost = self.imageCache.maxCost ∧
      next.imageCache.get imagePath frameIndex =
        (if (360 : Int) ∣ angle then self.imageCache.get imagePath frameIndex
          else env.rotateImage angle (self.imageCache.get imagePath frameIndex)) := by
  intro next
  have hp' : ¬ imagePath = self.lastRotatePath := fun h => hp h.symm
  have hnext : next = { self with
      lastRotateImage := self.imageCache.get imagePath frameIndex,
      lastRotatePath := imagePath,
      lastRotation := angle,
      imageCache := self.imageCache.add imagePath frameIndex
        (if angle.tmod 360 ≠ 0 then
          env.rotateImage angle (self.imageCache.get imagePath frameIndex)
         else self.imageCache.get imagePath frameIndex) } := by
    simp [next, ProviderCache.rotateImageCached, ha, hp', hn]
  rw [hnext]
  refine ⟨rfl, rfl, rfl, rfl, ?_⟩
  simp only
  rw [ThumbnailCache.get_add _ _ _ _ hcap]
  by_cases hd : (360 : Int) ∣ angle
  · rw [if_pos hd, if_neg (by rw [tmod_360_ne_zero_iff]; exact not_not.mpr hd)]
  · rw [if_neg hd, if_pos ((tmod_360_ne_zero_iff _).mpr hd)]

/-- Further rotations of the recorded path accumulate their angles, as `int` sums, on
the recorded image. -/
theorem ProviderCache.rotateImageCached_foldl (env : Env) (imagePath : String)
    (frameIndex : Int) (original : QImage) (hn : original.isNull = false) (angles : List Int)
    (hnz : ∀ a ∈ angles, a ≠ 0) (st : ProviderCache × ThumbnailCache)
    (hp : st.1.lastRotatePath = imagePath) (hi : st.1.lastRotateImage = original)
    (hcap : 0 < st.1.imageCache.maxCost)
    (hget : st.1.imageCache.get imagePath frameIndex =
      (if (360 : Int) ∣ st.1.lastRotation then original
        else env.rotateImage st.1.lastRotation original)) :
    let final := (angles.foldl
      (fun s a => s.1.rotateImageCached env a imagePath frameIndex s.2) st).1
    final.lastRotateImage = original ∧
      final.lastRotation = accumulateRotation st.1.lastRotation angles ∧
      final.imageCache.get imagePath frameIndex =
        (if (360 : Int) ∣ accumulateRotation st.1.lastRotation angles then original
          else env.rotateImage (accumulateRotation st.1.lastRotation angles) original) := by
  induction angles generalizing st with
  | nil =>
    intro final
    simp only [final, List.foldl_nil, accumulateRotation]
    exact ⟨hi, trivial, hget⟩
  | cons a rest ih =>
    intro final
    have ha : a ≠ 0 := hnz a (List.mem_cons_self _ _)
    have hrest : ∀ b ∈ rest, b ≠ 0 := fun b hb => hnz b (List.mem_cons_of_mem _ hb)
    have hn' : st.1.lastRotateImage.isNull = false := by rw [hi]; exact hn
    obtain ⟨h1, h2, h3, h4, h5⟩ := ProviderCache.rotateImageCached_again env a imagePath
      frameIndex st.1 st.2 ha hp hn' hcap
    have := ih hrest (st.1.rotateImageCached env a imagePath frameIndex st.2) h1
      (h2.trans hi) (by rw [h4]; exact hcap) (by rw [h5, h3, hi])
    simp only [final, List.foldl_cons]
    rw [h3] at this
    exact this

/-- A cache within its capacity that holds an image has capacity at least 1. -/
theorem ThumbnailCache.maxCost_pos_of_get (c : ThumbnailCache) (path : String)
    (frameIndex : Int) (hb : c.Bounded) (himg : (c.get path frameIndex).isNull = false) :
    0 < c.maxCost := by
  by_contra hcon
  have hlen : c.entries.length = 0 := by
    have := hb.1
    omega
  have hnil : c.entries = [] := List.length_eq_zero.mp hlen
  simp [ThumbnailCache.get, hnil, QImage.null, QImage.isNull] at himg

/-- Consecutive rotations of one image.  For a path `p` whose image is in the cache
under `(p, f)` and is not null, when the rotation record does not name `p` at the
first call, and for non-zero angles `a1 .. ak` (`k ≥ 1`) passed to consecutive
calls `rotateImageCached(ai, p, f)` with no other call in between, whose partial
sums `a1 + ... + ai` all stay in the range of `int`: after the last call the
cache entry `(p, f)` is the image that was cached before the first call rotated
once by the total `a1 + ... + ak`, and is that image unrotated when the total is
a multiple of 360; the record keeps the image that was cached before the first
call, so no call of the sequence rotates the result of an earlier one.  (The
cache is one that respects its capacity, as every cache the program builds
does.) -/
theorem rotateImageCached_sequence (env : Env) (self : ProviderCache)
    (thumbnails : ThumbnailCache) (imagePath : String) (frameIndex : Int) (angles : List Int)
    (hb : self.imageCache.Bounded)
    (himg : (self.imageCache.get imagePath frameIndex).isNull = false)
    (hrec : self.lastRotatePath ≠ imagePath)
    (hne : angles ≠ [])
    (hnz : ∀ a ∈ angles, a ≠ 0)
    (hrange : ∀ n, -2147483648 ≤ (angles.take n).sum ∧ (angles.take n).sum ≤ 2147483647) :
    let original := self.imageCache.get imagePath frameIndex
    let final := (angles.foldl
      (fun s a => s.1.rotateImageCached env a imagePath frameIndex s.2) (self, thumbnails)).1
    final.imageCache.get imagePath frameIndex =
        (if (360 : Int) ∣ angles.sum then original else env.rotateImage angles.sum original) ∧
      final.lastRotateImage = original ∧ final.lastRotation = angles.sum := by
  intro original final
  have hcap := ThumbnailCache.maxCost_pos_of_get _ imagePath frameIndex hb himg
  cases angles with
  | nil => exact absurd rfl hne
  | cons a rest =>
    have ha : a ≠ 0 := hnz a (List.mem_cons_self _ _)
    have hrest : ∀ b ∈ rest, b ≠ 0 := fun b hb => hnz b (List.mem_cons_of_mem _ hb)
    obtain ⟨h1, h2, h3, h4, h5⟩ := ProviderCache.rotateImageCached_first env a imagePath
      frameIndex self thumbnails ha hrec himg hcap
    have := ProviderCache.rotateImageCached_foldl env imagePath frameIndex original himg rest
      hrest (self.rotateImageCached env a imagePath frameIndex thumbnails) h1 h2
      (by rw [h4]; exact hcap) (by rw [h5, h3])
    have hsum : accumulateRotation a rest = a + rest.sum := by
      apply accumulateRotation_eq_sum
      intro n
      have := hrange (n + 1)
      simpa only [List.take_succ_cons, List.sum_cons] using this
    simp only [final, List.foldl_cons, List.sum_cons]
    rw [h3, hsum] at this
    exact ⟨this.2.2, this.1, this.2.1⟩

/-- An instance of `rotateImageCached_sequence`: `/a.png` loaded into a fresh provider
and rotated by 90 and then by 270 degrees is cached unrotated. -/
theorem rotateImageCached_sequence_witness :
    ((([90, 270] : List Int).foldl
        (fun (s : ProviderCache × ThumbnailCache) a =>
          s.1.rotateImageCached demoEnv a "/a.png" 0 s.2)
        ({ AsyncImageProvider.new 4 with
            imageCache := (AsyncImageProvider.new 4).imageCache.add "/a.png" 0 ⟨400, 200, [7]⟩ },
          ThumbnailCache.new 100)).1.imageCache.get "/a.png" 0 = ⟨400, 200, [7]⟩) := by
  have hrange : ∀ n, (-2147483648 : Int) ≤ (([90, 270] : List Int).take n).sum ∧
      (([90, 270] : List Int).take n).sum ≤ 2147483647 := by
    intro n
    rcases n with _ | _ | _ | n <;> simp
  have h := rotateImageCached_sequence demoEnv
    { AsyncImageProvider.new 4 with
      imageCache := (AsyncImageProvider.new 4).imageCache.add "/a.png" 0 ⟨400, 200, [7]⟩ }
    (ThumbnailCache.new 100) "/a.png" 0 [90, 270] ⟨by decide, by decide⟩ (by decide)
    (by decide) (by decide) (by decide) hrange
  exact h.1

/-- The `int` sum wraps: on `/a.png` in a fresh provider, the angles 2147483520 (a
multiple of 360) and 450 add up to 2147483970, a quarter turn, but the
accumulated angle is -2147483326, and the image is handed to `rotateImage` with
that angle. -/
theorem rotateImageCached_wraps :
    (([2147483520, 450] : List Int).foldl
        (fun (s : ProviderCache × ThumbnailCache) a =>
          s.1.rotateImageCached demoEnv a "/a.png" 0 s.2)
        ({ AsyncImageProvider.new 4 with
            imageCache := (AsyncImageProvider.new 4).imageCache.add "/a.png" 0 ⟨400, 200, [7]⟩ },
          ThumbnailCache.new 100)).1.lastRotation = -2147483326 ∧
      (([2147483520, 450] : List Int).foldl
        (fun (s : ProviderCache × ThumbnailCache) a =>
          s.1.rotateImageCached demoEnv a "/a.png" 0 s.2)
        ({ AsyncImageProvider.new 4 with
            imageCache := (AsyncImageProvider.new 4).imageCache.add "/a.png" 0 ⟨400, 200, [7]⟩ },
          ThumbnailCache.new 100)).1.imageCache.get "/a.png" 0 =
        demoEnv.rotateImage (-2147483326) ⟨400, 200, [7]⟩ := by
  decide

/-- C5 (code): frames 0 and 1 of `/b.tif` are cached and frame 1 has just been rotated
by 90 degrees, no other path being rotated; frame 0, cached as the 300 × 200
image, is then rotated by 90 degrees.  The record is compared by path alone, so
the entry of frame 0 becomes frame 1 rotated by 180 degrees (301 × 200) and not
the image that was cached under frame 0 rotated by 90 degrees (200 × 300). -/
theorem rotateImageCached_other_frame :
    afterRotatingFrameOne.1.imageCache.get "/b.tif" 0 = ⟨300, 200, [0]⟩ ∧
      (afterRotatingFrameOne.1.rotateImageCached demoEnv 90 "/b.tif" 0
          afterRotatingFrameOne.2).1.imageCache.get "/b.tif" 0 =
        demoEnv.rotateImage 180 ⟨301, 200, [1]⟩ ∧
      (afterRotatingFrameOne.1.rotateImageCached demoEnv 90 "/b.tif" 0
          afterRotatingFrameOne.2).1.imageCache.get "/b.tif" 0 ≠
        demoEnv.rotateImage 90 (afterRotatingFrameOne.1.imageCache.get "/b.tif" 0) := by
  decide

/-! ## Removal from the image cache -/

/-- The removal loop over some keys removes the entries under those of the keys
whose path is `imagePath`. -/
theorem foldl_remove_entries (imagePath : String) (keys : List Key) (c : ThumbnailCache) :
    (keys.foldl (fun cache key => if key.1 = imagePath then cache.remove key.1 key.2 else cache)
        c).entries =
      c.entries.filter (fun e => !(decide (e.1.1 = imagePath) && decide (e.1 ∈ keys))) := by
  induction keys generalizing c with
  | nil => simp
  | cons k ks ih =>
    simp only [List.foldl_cons]
    by_cases hk : k.1 = imagePath
    · rw [if_pos hk, ih]
      simp only [ThumbnailCache.remove, List.filter_filter, Prod.mk.eta]
      apply List.filter_congr
      intro e _
      by_cases hek : e.1 = k
      · simp [hek, hk]
      · simp [hek]
    · rw [if_neg hk, ih]
      apply List.filter_congr
      intro e _
      by_cases hek : e.1 = k
      · simp [hek, hk]
      · simp [hek]

/-- The entries left by `removeImageCache` are those of the other paths. -/
theorem ProviderCache.removeImageCache_entries (imagePath : String) (self : ProviderCache) :
    (self.removeImageCache imagePath).imageCache.entries =
      self.imageCache.entries.filter (fun e => decide (e.1.1 ≠ imagePath)) := by
  simp only [ProviderCache.removeImageCache, foldl_remove_entries]
  apply List.filter_congr
  intro e he
  have hmem : e.1 ∈ self.imageCache.keys := List.mem_map_of_mem _ he
  simp [hmem]

/-- C6: `ProviderCache::removeImageCache(p)` removes from the image cache every entry
whose path is `p`, whatever its frame index, and leaves every entry of another
path present and unchanged: the entries that remain are, in their order, exactly
the entries whose path differs from `p`; hence no key `(p, frame)` is left and a
key of another path is present as before and holds the image it held. -/
theorem removeImageCache_removes_path (imagePath : String) (self : ProviderCache) :
    (self.removeImageCache imagePath).imageCache.entries =
        self.imageCache.entries.filter (fun e => decide (e.1.1 ≠ imagePath)) ∧
      (∀ frameIndex,
        (self.removeImageCache imagePath).imageCache.contains imagePath frameIndex = false) ∧
      (∀ path frameIndex, path ≠ imagePath →
        (self.removeImageCache imagePath).imageCache.contains path frameIndex =
            self.imageCache.contains path frameIndex ∧
          (self.removeImageCache imagePath).imageCache.get path frameIndex =
            self.imageCache.get path frameIndex) := by
  have h := ProviderCache.removeImageCache_entries imagePath self
  refine ⟨h, ?_, ?_⟩
  · intro frameIndex
    simp only [ThumbnailCache.contains, h, List.any_eq_false, List.mem_filter]
    rintro e ⟨_, he⟩ hk
    simp only [beq_iff_eq] at hk
    simp [hk] at he
  · intro path frameIndex hp
    have hfind : ∀ l : List (Key × QImage),
        (l.filter (fun e => decide (e.1.1 ≠ imagePath))).find?
            (fun e => e.1 == (path, frameIndex)) =
          l.find? (fun e => e.1 == (path, frameIndex)) := by
      intro l
      induction l with
      | nil => rfl
      | cons e l ih =>
        by_cases he : e.1.1 = imagePath
        · have hne : (e.1 == (path, frameIndex)) = false := by
            rw [beq_eq_false_iff_ne]
            intro hk
            apply hp
            rw [← he, hk]
          rw [List.filter_cons_of_neg (by simp [he]), List.find?_cons, hne, ih]
        · rw [List.filter_cons_of_pos (by simp [he]), List.find?_cons, List.find?_cons, ih]
    constructor
    · simp only [ThumbnailCache.contains, h]
      rw [Bool.eq_iff_iff]
      simp only [List.any_eq_true, List.mem_filter, beq_iff_eq, decide_eq_true_eq]
      constructor
      · rintro ⟨e, ⟨he, _⟩, hk⟩; exact ⟨e, he, hk⟩
      · rintro ⟨e, he, hk⟩
        refine ⟨e, ⟨he, ?_⟩, hk⟩
        rw [hk]; exact hp
    · simp only [ThumbnailCache.get, h, hfind]

/-! ## Where the program departs from its documentation -/

/-- C7 (code): `rotateImageCached` with angle 0 returns at once and leaves the whole
state as it was, rotation record included.  After `/a.png` was rotated by 90
degrees, a call with angle 0 leaves the record naming `/a.png` with its image and
the angle 90, and the next rotation by 90 degrees stores the recorded image
rotated by 180 degrees. -/
theorem rotateImageCached_zero_keeps_record :
    (∀ (env : Env) (imagePath : String) (frameIndex : Int) (self : ProviderCache)
        (thumbnails : ThumbnailCache),
        self.rotateImageCached env 0 imagePath frameIndex thumbnails = (self, thumbnails)) ∧
      (afterRotatingA.1.rotateImageCached demoEnv 0 "/a.png" 0 afterRotatingA.2).1.lastRotatePath =
        "/a.png" ∧
      (afterRotatingA.1.rotateImageCached demoEnv 0 "/a.png" 0 afterRotatingA.2).1.lastRotateImage =
        ⟨400, 200, [7]⟩ ∧
      (afterRotatingA.1.rotateImageCached demoEnv 0 "/a.png" 0 afterRotatingA.2).1.lastRotation =
        90 ∧
      (AsyncImageProvider.step demoEnv
          (afterRotatingA.1.rotateImageCached demoEnv 0 "/a.png" 0 afterRotatingA.2)
          (Call.rotateImageCached 90 "/a.png" 0)).1.imageCache.get "/a.png" 0 =
        demoEnv.rotateImage 180 ⟨400, 200, [7]⟩ := by
  refine ⟨?_, ?_, ?_, ?_, ?_⟩
  · intro env imagePath frameIndex self thumbnails
    simp [ProviderCache.rotateImageCached]
  · decide
  · decide
  · decide
  · decide

/-- C8 (code): `removeImageCache` leaves the rotation record as it was.  After
`/a.png` was rotated by 90 degrees and then removed, the cache has no entry for
it but the record still names it; a rotation by 90 degrees with no load in
between finds the recorded image and adds it, rotated by 180 degrees, to the
cache under `("/a.png", 0)`. -/
theorem removeImageCache_keeps_record :
    (∀ (imagePath : String) (self : ProviderCache),
        (self.removeImageCache imagePath).lastRotatePath = self.lastRotatePath ∧
        (self.removeImageCache imagePath).lastRotateImage = self.lastRotateImage ∧
        (self.removeImageCache imagePath).lastRotation = self.lastRotation) ∧
      (afterRotatingA.1.removeImageCache "/a.png").imageCache.contains "/a.png" 0 = false ∧
      (afterRotatingA.1.removeImageCache "/a.png").lastRotatePath = "/a.png" ∧
      (((afterRotatingA.1.removeImageCache "/a.png").rotateImageCached demoEnv 90 "/a.png" 0
          afterRotatingA.2).1.imageCache.contains "/a.png" 0 = true) ∧
      (((afterRotatingA.1.removeImageCache "/a.png").rotateImageCached demoEnv 90 "/a.png" 0
          afterRotatingA.2).1.imageCache.get "/a.png" 0 =
        demoEnv.rotateImage 180 ⟨400, 200, [7]⟩) := by
  refine ⟨?_, ?_, ?_, ?_, ?_⟩
  · intro imagePath self
    exact ⟨rfl, rfl, rfl⟩
  · decide
  · decide
  · decide
  · decide

/-- C9 (code): on a cache hit `ImageProvider::requestImage` does not write `*size`.  The
first request for `/a.png` writes the original size 400 × 200; the second one,
served from the cache, leaves in `*size` the invalid size it held before the
call, although the image is the same 400 × 200 image. -/
theorem requestImage_size_not_written_on_hit :
    (∀ (env : Env) (imageCache : ThumbnailCache) (id : String) (size : Option QSize)
        (requestedSize : QSize),
        (imageCache.get (parseProviderID env.toLocalFile id).1
          (parseProviderID env.toLocalFile id).2).isNull = false →
        (ImageProvider.requestImage env imageCache id size requestedSize).size = size) ∧
      (ImageProvider.requestImage demoEnv (ThumbnailCache.new 4) "file:///a.png"
        (some QSize.invalid) QSize.invalid).size = some ⟨400, 200⟩ ∧
      (ImageProvider.requestImage demoEnv
        (ImageProvider.requestImage demoEnv (ThumbnailCache.new 4) "file:///a.png"
          (some QSize.invalid) QSize.invalid).cache
        "file:///a.png" (some QSize.invalid) QSize.invalid).size = some QSize.invalid ∧
      (ImageProvider.requestImage demoEnv
        (ImageProvider.requestImage demoEnv (ThumbnailCache.new 4) "file:///a.png"
          (some QSize.invalid) QSize.invalid).cache
        "file:///a.png" (some QSize.invalid) QSize.invalid).image = ⟨400, 200, [7]⟩ := by
  refine ⟨?_, ?_, ?_, ?_⟩
  · intro env imageCache id size requestedSize hc
    rcases hpf : parseProviderID env.toLocalFile id with ⟨path, frame⟩
    rw [hpf] at hc
    simp only at hc
    simp [ImageProvider.requestImage, hpf, hc]
  · decide
  · decide
  · decide

/-! ## Thumbnail requests -/

/-- C10 (amended): for every id whose image is readable and every valid `requestedSize`
with both dimensions at least 1, `ThumbnailProvider::requestImage` returns an
image of exactly size `requestedSize` when the request is made while the
thumbnail cache holds no entry for the `(path, frame)` of the id. -/
theorem thumbnailProvider_request_on_miss (env : Env) (thumbnails : ThumbnailCache)
    (id : String) (size : Option QSize) (requestedSize : QSize)
    (hmiss : thumbnails.contains (parseProviderID env.toLocalFile id).1
      (parseProviderID env.toLocalFile id).2 = false)
    (hread : (if (parseProviderID env.toLocalFile id).2 ≠ 0 then
        readMultiImage env (parseProviderID env.toLocalFile id).1
          (parseProviderID env.toLocalFile id).2
      else readNormalImage env (parseProviderID env.toLocalFile id).1).isNull = false)
    (hvalid : requestedSize.isValid = true) (hne : requestedSize.isEmpty = false) :
    (ThumbnailProvider.requestImage env thumbnails id size requestedSize).image.size =
      requestedSize := by
  rcases hpf : parseProviderID env.toLocalFile id with ⟨path, frame⟩
  rw [hpf] at hmiss hread
  simp only at hmiss hread
  have hstep := (resize_step env
    (if frame ≠ 0 then readMultiImage env path frame else readNormalImage env path)
    requestedSize).1 hread hvalid hne
  simp only [ThumbnailProvider.requestImage, hpf, hmiss, Bool.false_eq_true, if_false]
  exact hstep

/-- C10 (witness): the first request for `/a.png` with the size 50 × 50. -/
theorem thumbnailProvider_request_on_miss_witness :
    (ThumbnailProvider.requestImage demoEnv (ThumbnailCache.new 100) "file:///a.png" none
      ⟨50, 50⟩).image.size = ⟨50, 50⟩ :=
  thumbnailProvider_request_on_miss demoEnv (ThumbnailCache.new 100) "file:///a.png" none
    ⟨50, 50⟩ (by decide) (by decide) (by decide) (by decide)

/-- C10 (counterexample): `/a.png` is readable and 50 × 50 is a valid size; the first
request returns an image of 50 × 50, and the second request, made on the cache
the first one left, returns the cached thumbnail of 200 × 100.  Also, the valid
size `(100, 0)` gives a null image on the first request. -/
theorem thumbnailProvider_second_request :
    (readNormalImage demoEnv "/a.png").isNull = false ∧
      QSize.isValid ⟨50, 50⟩ = true ∧
      QSize.isValid ⟨100, 0⟩ = true ∧
      (ThumbnailProvider.requestImage demoEnv (ThumbnailCache.new 100) "file:///a.png" none
        ⟨100, 0⟩).image.size ≠ ⟨100, 0⟩ ∧
      (ThumbnailProvider.requestImage demoEnv (ThumbnailCache.new 100) "file:///a.png" none
        ⟨50, 50⟩).image.size = ⟨50, 50⟩ ∧
      (ThumbnailProvider.requestImage demoEnv
        (ThumbnailProvider.requestImage demoEnv (ThumbnailCache.new 100) "file:///a.png" none
          ⟨50, 50⟩).cache
        "file:///a.png" none ⟨50, 50⟩).image.size = ⟨200, 100⟩ := by
  decide

/-! ## Mouse event listener: press and hold -/

/-- A call other than the expiry of the hold timer emits no `pressAndHold`. -/
theorem MouseEventListener.step_no_hold (d : Int) (s : MouseEventListener) (c : ListenerCall)
    (hc : c ≠ ListenerCall.timeout) :
    (s.step d c).signals.any Signal.isPressAndHold = false := by
  cases c with
  | timeout => exact absurd rfl hc
  | childMouseEventFilter itemIsListener itemPos event =>
    cases event <;>
      simp only [MouseEventListener.step, MouseEventListener.childMouseEventFilter,
        MouseEventListener.handleUngrab] <;>
      (repeat' split) <;> simp [Signal.isPressAndHold]
  | _ =>
    simp only [MouseEventListener.step, MouseEventListener.hoverEnterEvent,
      MouseEventListener.hoverLeaveEvent, MouseEventListener.hoverMoveEvent,
      MouseEventListener.mousePressEvent, MouseEventListener.mouseMoveEvent,
      MouseEventListener.mouseReleaseEvent, MouseEventListener.wheelEvent,
      MouseEventListener.mouseUngrabEvent, MouseEventListener.touchUngrabEvent,
      MouseEventListener.handleUngrab, MouseEventListener.setEnableMouse,
      MouseEventListener.setAcceptedButtons, MouseEventListener.setHoverEnabled]
    (repeat' split) <;> simp [Signal.isPressAndHold]

/-- The expiry of the hold timer emits `pressAndHold` exactly when the timer is active
and the listener is enabled and pressed. -/
theorem MouseEventListener.timeout_hold (s : MouseEventListener) :
    s.timeout.signals.any Signal.isPressAndHold = true ↔
      (s.timerActive = true ∧ s.m_enableMouse = true ∧ s.m_pressed = true) := by
  cases ht : s.timerActive <;> cases he : s.m_enableMouse <;> cases hp : s.m_pressed <;>
    simp [MouseEventListener.timeout, MouseEventListener.handlePressAndHold, ht, he, hp,
      Signal.isPressAndHold]

/-- A call that is not a press leaves a listener that is not pressed not pressed, and
an inactive hold timer inactive. -/
theorem MouseEventListener.step_keeps_idle (d : Int) (s : MouseEventListener)
    (c : ListenerCall) (hc : c.isPress = false) :
    (s.m_pressed = false → (s.step d c).self.m_pressed = false) ∧
      (s.timerActive = false → (s.step d c).self.timerActive = false) := by
  cases c with
  | mousePressEvent me => simp [ListenerCall.isPress] at hc
  | childMouseEventFilter itemIsListener itemPos event =>
    cases event with
    | MouseButtonPress me => simp [ListenerCall.isPress] at hc
    | _ =>
      simp only [MouseEventListener.step, MouseEventListener.childMouseEventFilter,
        MouseEventListener.handleUngrab]
      constructor <;> intro h <;> (repeat' split) <;> simp_all
  | _ =>
    simp only [MouseEventListener.step, MouseEventListener.hoverEnterEvent,
      MouseEventListener.hoverLeaveEvent, MouseEventListener.hoverMoveEvent,
      MouseEventListener.mouseMoveEvent, MouseEventListener.timeout,
      MouseEventListener.handlePressAndHold,
      MouseEventListener.mouseReleaseEvent, MouseEventListener.wheelEvent,
      MouseEventListener.mouseUngrabEvent, MouseEventListener.touchUngrabEvent,
      MouseEventListener.handleUngrab, MouseEventListener.setEnableMouse,
      MouseEventListener.setAcceptedButtons, MouseEventListener.setHoverEnabled]
    constructor <;> intro h <;> (repeat' split) <;> simp_all

/-- While no press arrives, a listener that is not pressed, or whose hold timer is not
active, emits no `pressAndHold`. -/
theorem MouseEventListener.run_no_hold (d : Int) (calls : List ListenerCall)
    (s : MouseEventListener) (hs : s.m_pressed = false ∨ s.timerActive = false)
    (hcalls : ∀ c ∈ calls, c.isPress = false) :
    ∀ signals ∈ (s.run d calls).1, signals.any Signal.isPressAndHold = false := by
  induction calls generalizing s with
  | nil => intro signals h; simp [MouseEventListener.run] at h
  | cons c calls ih =>
    intro signals h
    have hc : c.isPress = false := hcalls c (List.mem_cons_self _ _)
    have hrest : ∀ c' ∈ calls, c'.isPress = false :=
      fun c' hc' => hcalls c' (List.mem_cons_of_mem _ hc')
    have hkeep := MouseEventListener.step_keeps_idle d s c hc
    simp only [MouseEventListener.run, List.mem_cons] at h
    rcases h with h | h
    · rw [h]
      by_cases ht : c = ListenerCall.timeout
      · subst ht
        cases hh : (s.step d ListenerCall.timeout).signals.any Signal.isPressAndHold with
        | false => rfl
        | true =>
          have := (MouseEventListener.timeout_hold s).mp hh
          rcases hs with hs | hs
          · rw [hs] at this; simp at this
          · rw [hs] at this; simp at this
      · exact MouseEventListener.step_no_hold d s c ht
    · apply ih (s.step d c).self _ hrest signals h
      rcases hs with hs | hs
      · exact Or.inl (hkeep.1 hs)
      · exact Or.inr (hkeep.2 hs)

/-- C11 (amended): with start-drag distance `d`: (1) a call emits `pressAndHold` exactly
when it is the expiry of the active hold timer while the listener is enabled and
pressed; (2) a release the listener handles and an ungrab leave it not pressed,
and from a listener that is not pressed no `pressAndHold` is emitted until a new
press; (3) a mouse move that the listener handles — it is enabled, the move
carries an accepted button and is not the event last seen by the child filter —
and whose Manhattan distance from the press position exceeds `d` leaves the hold
timer stopped, and from a stopped timer no `pressAndHold` is emitted until a new
press. -/
theorem pressAndHold_emission (d : Int) :
    (∀ (s : MouseEventListener) (c : ListenerCall),
        (s.step d c).signals.any Signal.isPressAndHold = true ↔
          (c = ListenerCall.timeout ∧ s.timerActive = true ∧ s.m_enableMouse = true ∧
            s.m_pressed = true)) ∧
      (∀ (s : MouseEventListener) (me : QMouseEvent),
        s.m_enableMouse = true → s.m_lastEvent ≠ some me.id →
          (s.mouseReleaseEvent me).self.m_pressed = false) ∧
      (∀ (s : MouseEventListener), s.m_enableMouse = true →
          s.handleUngrab.self.m_pressed = false) ∧
      (∀ (s : MouseEventListener) (calls : List ListenerCall),
        s.m_pressed = false → (∀ c ∈ calls, c.isPress = false) →
          ∀ signals ∈ (s.run d calls).1, signals.any Signal.isPressAndHold = false) ∧
      (∀ (s : MouseEventListener) (me : QMouseEvent),
        s.m_enableMouse = true → s.m_lastEvent ≠ some me.id →
          (me.buttons &&& s.m_acceptedButtons) ≠ 0 →
          d < (me.screenPos.sub s.m_buttonDownPos).manhattanLength →
          (s.mouseMoveEvent d me).self.timerActive = false) ∧
      (∀ (s : MouseEventListener) (calls : List ListenerCall),
        s.timerActive = false → (∀ c ∈ calls, c.isPress = false) →
          ∀ signals ∈ (s.run d calls).1, signals.any Signal.isPressAndHold = false) := by
  refine ⟨?_, ?_, ?_, ?_, ?_, ?_⟩
  · intro s c
    by_cases hc : c = ListenerCall.timeout
    · subst hc
      have := MouseEventListener.timeout_hold s
      simp only [MouseEventListener.step, true_and]
      exact this
    · rw [MouseEventListener.step_no_hold d s c hc]
      simp [hc]
  · intro s me he hl
    simp [MouseEventListener.mouseReleaseEvent, he, hl]
    split <;> rfl
  · intro s he
    cases hp : s.m_pressed <;> simp [MouseEventListener.handleUngrab, he, hp]
  · intro s calls hp hcalls
    exact MouseEventListener.run_no_hold d calls s (Or.inl hp) hcalls
  · intro s me he hl hb hd
    cases ht : s.timerActive <;>
      simp [MouseEventListener.mouseMoveEvent, he, hl, hb, hd, ht]
  · intro s calls ht hcalls
    exact MouseEventListener.run_no_hold d calls s (Or.inr ht) hcalls

/-- C11 (counterexample): with start-drag distance 10, the left button is pressed at
`(10, 10)`, the listener is disabled, the mouse moves to `(90, 90)` — a Manhattan
distance of 160 —, the listener is enabled again and the hold timer expires.  The
move does not stop the timer, and `pressAndHold` is emitted. -/
theorem pressAndHold_after_far_move :
    (10 : Int) < ((⟨90, 90⟩ : QPointF).sub ⟨10, 10⟩).manhattanLength ∧
      (demoListener.run 10
        [ListenerCall.mousePressEvent (leftButtonEvent 1 ⟨10, 10⟩ LeftButton),
          ListenerCall.setEnableMouse false,
          ListenerCall.mouseMoveEvent (leftButtonEvent 2 ⟨90, 90⟩ LeftButton)]).2.timerActive =
        true ∧
      (demoListener.run 10
        [ListenerCall.mousePressEvent (leftButtonEvent 1 ⟨10, 10⟩ LeftButton),
          ListenerCall.setEnableMouse false,
          ListenerCall.mouseMoveEvent (leftButtonEvent 2 ⟨90, 90⟩ LeftButton),
          ListenerCall.setEnableMouse true,
          ListenerCall.timeout]).1 =
        [[Signal.pressed ((leftButtonEvent 1 ⟨10, 10⟩ LeftButton).toDeclarative ⟨10, 10⟩),
            Signal.pressedChanged],
          [], [], [],
          [Signal.pressAndHold
            (some ((leftButtonEvent 1 ⟨10, 10⟩ LeftButton).toDeclarative ⟨10, 10⟩))]] := by
  decide

/-! ## Mouse event listener: release and click -/

/-- A call that is not a press emits `clicked` or `pressAndHold` at most once, only
with the hold timer active, and then leaves the timer stopped; it never starts
the timer. -/
theorem MouseEventListener.step_click_or_hold (d : Int) (s : MouseEventListener)
    (c : ListenerCall) (hc : c.isPress = false) :
    (s.step d c).signals.countP (fun sig => sig.isClicked || sig.isPressAndHold) +
        (if (s.step d c).self.timerActive = true then 1 else 0) ≤
      (if s.timerActive = true then 1 else 0) := by
  cases c with
  | mousePressEvent me => simp [ListenerCall.isPress] at hc
  | childMouseEventFilter itemIsListener itemPos event =>
    cases event with
    | MouseButtonPress me => simp [ListenerCall.isPress] at hc
    | MouseMove me =>
      simp only [MouseEventListener.step, MouseEventListener.childMouseEventFilter]
      cases hev : s.m_pressAndHoldEvent <;> split_ifs <;>
        simp [Signal.isClicked, Signal.isPressAndHold, List.countP_cons, *]
    | _ =>
      simp only [MouseEventListener.step, MouseEventListener.childMouseEventFilter,
        MouseEventListener.handleUngrab]
      split_ifs <;> simp [Signal.isClicked, Signal.isPressAndHold, List.countP_cons, *] <;>
        simp_all
  | hoverEnterEvent =>
    simp only [MouseEventListener.step, MouseEventListener.hoverEnterEvent]
    split_ifs <;> simp [Signal.isClicked, Signal.isPressAndHold]
  | hoverLeaveEvent =>
    simp only [MouseEventListener.step, MouseEventListener.hoverLeaveEvent]
    split_ifs <;> simp [Signal.isClicked, Signal.isPressAndHold]
  | hoverMoveEvent event =>
    simp only [MouseEventListener.step, MouseEventListener.hoverMoveEvent]
    split_ifs <;> simp [Signal.isClicked, Signal.isPressAndHold]
  | mouseMoveEvent me =>
    simp only [MouseEventListener.step, MouseEventListener.mouseMoveEvent]
    split_ifs <;> simp [Signal.isClicked, Signal.isPressAndHold, *]
  | mouseReleaseEvent me =>
    simp only [MouseEventListener.step, MouseEventListener.mouseReleaseEvent]
    split_ifs <;> simp [Signal.isClicked, Signal.isPressAndHold, *] <;> simp_all
  | wheelEvent id =>
    simp only [MouseEventListener.step, MouseEventListener.wheelEvent]
    split_ifs <;> simp [Signal.isClicked, Signal.isPressAndHold]
  | mouseUngrabEvent =>
    simp only [MouseEventListener.step, MouseEventListener.mouseUngrabEvent,
      MouseEventListener.handleUngrab]
    split_ifs <;> simp [Signal.isClicked, Signal.isPressAndHold, *]
  | touchUngrabEvent =>
    simp only [MouseEventListener.step, MouseEventListener.touchUngrabEvent,
      MouseEventListener.handleUngrab]
    split_ifs <;> simp [Signal.isClicked, Signal.isPressAndHold, *]
  | timeout =>
    simp only [MouseEventListener.step, MouseEventListener.timeout,
      MouseEventListener.handlePressAndHold]
    split_ifs <;> simp [Signal.isClicked, Signal.isPressAndHold, *]
  | setEnableMouse enable =>
    simp [MouseEventListener.step, MouseEventListener.setEnableMouse]
  | setAcceptedButtons buttons =>
    simp only [MouseEventListener.step, MouseEventListener.setAcceptedButtons]
    split_ifs <;> simp [Signal.isClicked, Signal.isPressAndHold]
  | setHoverEnabled enable =>
    simp only [MouseEventListener.step, MouseEventListener.setHoverEnabled]
    split_ifs <;> simp [Signal.isClicked, Signal.isPressAndHold]
  | setItem enabled width height scenePos windowPosition =>
    simp [MouseEventListener.step]

/-- While no press arrives, `clicked` and `pressAndHold` are emitted at most once in
all, and not at all when the hold timer is not active. -/
theorem MouseEventListener.run_click_or_hold (d : Int) (calls : List ListenerCall)
    (s : MouseEventListener) (hcalls : ∀ c ∈ calls, c.isPress = false) :
    (s.run d calls).1.flatten.countP (fun sig => sig.isClicked || sig.isPressAndHold) ≤
      (if s.timerActive = true then 1 else 0) := by
  induction calls generalizing s with
  | nil =>
    simp only [MouseEventListener.run, List.flatten_nil, List.countP_nil]
    exact Nat.zero_le _
  | cons c calls ih =>
    have hc : c.isPress = false := hcalls c (List.mem_cons_self _ _)
    have hrest : ∀ c' ∈ calls, c'.isPress = false :=
      fun c' hc' => hcalls c' (List.mem_cons_of_mem _ hc')
    have hstep := MouseEventListener.step_click_or_hold d s c hc
    have hih := ih (s.step d c).self hrest
    simp only [MouseEventListener.run, List.flatten_cons, List.countP_append]
    omega

/-- C12 (amended): `MouseEventListener::mouseReleaseEvent`, when the listener is enabled
and the event is not the one last seen by the child filter, always sets pressed to
false and emits `released`, and emits `clicked` if and only if the release
position lies inside the bounding rectangle of the item and the hold timer is
still active, the timer being stopped then; and, with start-drag distance `d`,
while no new press arrives `clicked` and `pressAndHold` are emitted at most once
in all, so that one press gives at most one of them. -/
theorem mouseReleaseEvent_clicked (d : Int) (s : MouseEventListener) (me : QMouseEvent)
    (he : s.m_enableMouse = true) (hl : s.m_lastEvent ≠ some me.id) :
    (s.mouseReleaseEvent me).self.m_pressed = false ∧
      (s.mouseReleaseEvent me).signals.any Signal.isReleased = true ∧
      ((s.mouseReleaseEvent me).signals.any Signal.isClicked = true ↔
        (s.boundingRect.contains me.pos = true ∧ s.timerActive = true)) ∧
      ((s.mouseReleaseEvent me).signals.any Signal.isClicked = true →
        (s.mouseReleaseEvent me).self.timerActive = false) ∧
      (∀ (s' : MouseEventListener) (calls : List ListenerCall),
        (∀ c ∈ calls, c.isPress = false) →
          (s'.run d calls).1.flatten.countP
            (fun sig => sig.isClicked || sig.isPressAndHold) ≤ 1) := by
  have hb : ∀ (t : MouseEventListener), t.boundingRect = ⟨0, 0, t.width, t.height⟩ :=
    fun _ => rfl
  refine ⟨?_, ?_, ?_, ?_, ?_⟩
  · simp only [MouseEventListener.mouseReleaseEvent, he, hl, hb]
    split_ifs <;> simp_all
  · simp only [MouseEventListener.mouseReleaseEvent, he, hl, hb]
    split_ifs <;> simp_all [Signal.isReleased]
  · simp only [MouseEventListener.mouseReleaseEvent, he, hl, hb]
    split_ifs <;> simp_all [Signal.isClicked]
  · simp only [MouseEventListener.mouseReleaseEvent, he, hl, hb]
    split_ifs <;> simp_all [Signal.isClicked]
  · intro s' calls hcalls
    have h := MouseEventListener.run_click_or_hold d calls s' hcalls
    split_ifs at h <;> omega

/-- C12 (witness): the left button is pressed at `(10, 10)` on the 100 × 100 item and
released there while the hold timer runs: `clicked` is emitted. -/
theorem mouseReleaseEvent_clicked_witness :
    ((demoListener.mousePressEvent (leftButtonEvent 1 ⟨10, 10⟩ LeftButton)).self.mouseReleaseEvent
        (leftButtonEvent 2 ⟨10, 10⟩ 0)).signals.any Signal.isClicked = true :=
  (mouseReleaseEvent_clicked 10
    (demoListener.mousePressEvent (leftButtonEvent 1 ⟨10, 10⟩ LeftButton)).self
    (leftButtonEvent 2 ⟨10, 10⟩ 0) (by decide) (by decide)).2.2.1.mpr ⟨by decide, by decide⟩

/-- C12 (counterexample): with start-drag distance 10, the left button is pressed at
`(10, 10)`; the release at `(60, 60)` is first seen by the child filter, which
emits `released`, and the same event then reaches `mouseReleaseEvent`.  The
listener is enabled, the position is inside the bounding rectangle and the hold
timer is still active, yet `mouseReleaseEvent` emits nothing, neither `released`
nor `clicked`. -/
theorem mouseReleaseEvent_after_filter :
    (demoListener.run 10
        [ListenerCall.mousePressEvent (leftButtonEvent 1 ⟨10, 10⟩ LeftButton),
          ListenerCall.childMouseEventFilter false ⟨0, 0⟩
            (QEvent.MouseButtonRelease (leftButtonEvent 2 ⟨60, 60⟩ 0))]).2.m_enableMouse = true ∧
      (demoListener.run 10
        [ListenerCall.mousePressEvent (leftButtonEvent 1 ⟨10, 10⟩ LeftButton),
          ListenerCall.childMouseEventFilter false ⟨0, 0⟩
            (QEvent.MouseButtonRelease (leftButtonEvent 2 ⟨60, 60⟩ 0))]).2.timerActive = true ∧
      (demoListener.run 10
        [ListenerCall.mousePressEvent (leftButtonEvent 1 ⟨10, 10⟩ LeftButton),
          ListenerCall.childMouseEventFilter false ⟨0, 0⟩
            (QEvent.MouseButtonRelease (leftButtonEvent 2 ⟨60, 60⟩ 0))]).2.boundingRect.contains
        (leftButtonEvent 2 ⟨60, 60⟩ 0).pos = true ∧
      ((demoListener.run 10
        [ListenerCall.mousePressEvent (leftButtonEvent 1 ⟨10, 10⟩ LeftButton),
          ListenerCall.childMouseEventFilter false ⟨0, 0⟩
            (QEvent.MouseButtonRelease (leftButtonEvent 2 ⟨60, 60⟩ 0))]).2.mouseReleaseEvent
        (leftButtonEvent 2 ⟨60, 60⟩ 0)).signals = [] := by
  decide

/-! ## The rotation record and the frame index -/

/-- C13 (code): the rotation record is compared by path alone.  Whenever the record
names the path, a rotation of any frame `f` of it stores under `(p, f)` the
recorded image, rotated by the accumulated angle (the `int` sum of the recorded
angle and the new one), whatever `(p, f)` held.  With
frames 1 and 2 of `/b.tif` loaded, rotating frame 1 by 90 degrees and then frame
2 by 90 degrees stores under `("/b.tif", 2)` frame 1 (301 × 200) rotated by 180
degrees, not a rotation of frame 2 (302 × 200). -/
theorem rotateImageCached_ignores_frame :
    (∀ (env : Env) (angle : Int) (imagePath : String) (frameIndex : Int)
        (self : ProviderCache) (thumbnails : ThumbnailCache),
        angle ≠ 0 → self.lastRotatePath = imagePath → self.lastRotateImage.isNull = false →
        0 < self.imageCache.maxCost →
        (self.rotateImageCached env angle imagePath frameIndex thumbnails).1.imageCache.get
            imagePath frameIndex =
          (if (360 : Int) ∣ wrapInt32 (self.lastRotation + angle) then self.lastRotateImage
            else env.rotateImage (wrapInt32 (self.lastRotation + angle))
              self.lastRotateImage)) ∧
      framesOneAndTwoLoaded.1.imageCache.get "/b.tif" 1 = ⟨301, 200, [1]⟩ ∧
      framesOneAndTwoLoaded.1.imageCache.get "/b.tif" 2 = ⟨302, 200, [2]⟩ ∧
      ([Call.rotateImageCached 90 "/b.tif" 1, Call.rotateImageCached 90 "/b.tif" 2].foldl
          (AsyncImageProvider.step demoEnv) framesOneAndTwoLoaded).1.imageCache.get "/b.tif" 2 =
        demoEnv.rotateImage 180 ⟨301, 200, [1]⟩ ∧
      ([Call.rotateImageCached 90 "/b.tif" 1, Call.rotateImageCached 90 "/b.tif" 2].foldl
          (AsyncImageProvider.step demoEnv) framesOneAndTwoLoaded).1.imageCache.get "/b.tif" 2 ≠
        demoEnv.rotateImage 90 ⟨302, 200, [2]⟩ := by
  refine ⟨?_, ?_, ?_, ?_, ?_⟩
  · intro env angle imagePath frameIndex self thumbnails ha hp hn hcap
    exact (ProviderCache.rotateImageCached_again env angle imagePath frameIndex self thumbnails
      ha hp hn hcap).2.2.2.2
  · decide
  · decide
  · decide
  · decide

/-! ## Failed loads and the cache -/

/-- A search in the first entries of a list finds nothing or what the search in the
whole list finds. -/
theorem find?_take_eq {α : Type} (p : α → Bool) (l : List α) (n : Nat) :
    (l.take n).find? p = none ∨ (l.take n).find? p = l.find? p := by
  induction l generalizing n with
  | nil => simp
  | cons a l ih =>
    cases n with
    | zero => simp
    | succ n =>
      simp only [List.take_succ_cons, List.find?_cons]
      cases p a with
      | true => exact Or.inr rfl
      | false => exact ih n

/-- A search is not affected by a filter that keeps everything the search accepts. -/
theorem find?_filter_eq {α : Type} (p q : α → Bool) (l : List α)
    (h : ∀ x, p x = true → q x = true) : (l.filter q).find? p = l.find? p := by
  induction l with
  | nil => rfl
  | cons a l ih =>
    cases hq : q a with
    | true => rw [List.filter_cons_of_pos hq, List.find?_cons, List.find?_cons, ih]
    | false =>
      have hp : p a = false := by
        cases hpa : p a with
        | false => rfl
        | true => rw [h a hpa] at hq; cases hq
      rw [List.filter_cons_of_neg (by simp [hq]), List.find?_cons, hp, ih]

/-- A key that yields a null image on lookup still does so after an insertion, unless
a non-null image is inserted under that very key. -/
theorem ThumbnailCache.get_add_isNull (c : ThumbnailCache) (path : String) (frameIndex : Int)
    (path' : String) (frameIndex' : Int) (image : QImage)
    (h : (c.get path frameIndex).isNull = true)
    (himg : (path', frameIndex') = (path, frameIndex) → image.isNull = true) :
    ((c.add path' frameIndex' image).get path frameIndex).isNull = true := by
  by_cases hk : (path', frameIndex') = (path, frameIndex)
  · cases hm : c.maxCost with
    | zero => simp [ThumbnailCache.add, ThumbnailCache.get, hm, QImage.null, QImage.isNull]
    | succ m =>
      simp only [ThumbnailCache.add, ThumbnailCache.get, hm, List.take_succ_cons,
        List.find?_cons, hk, beq_self_eq_true]
      exact himg hk
  · have hhead : ((path', frameIndex') == (path, frameIndex)) = false := by
      rw [beq_eq_false_iff_ne]; exact hk
    have hfilter : (c.entries.filter (fun e => e.1 != (path', frameIndex'))).find?
        (fun e => e.1 == (path, frameIndex)) =
        c.entries.find? (fun e => e.1 == (path, frameIndex)) := by
      apply find?_filter_eq
      intro x hx
      rw [beq_iff_eq] at hx
      rw [hx, bne_iff_ne]
      exact fun h' => hk h'.symm
    have hfull : ((((path', frameIndex'), image) ::
        c.entries.filter (fun e => e.1 != (path', frameIndex')))).find?
        (fun e => e.1 == (path, frameIndex)) =
        c.entries.find? (fun e => e.1 == (path, frameIndex)) := by
      rw [List.find?_cons, hhead, hfilter]
    rcases find?_take_eq (fun e : Key × QImage => e.1 == (path, frameIndex))
      ((((path', frameIndex'), image) ::
        c.entries.filter (fun e => e.1 != (path', frameIndex')))) c.maxCost with hn | he
    · simp only [ThumbnailCache.add, ThumbnailCache.get, hn]
      rfl
    · simp only [ThumbnailCache.add, ThumbnailCache.get, he, hfull]
      exact h

/-- A request leaves a key whose lookup is null and whose file does not decode with a
null lookup. -/
theorem ImageRequest.serve_keeps_null (env : Env) (imageCache : ThumbnailCache)
    (r : ImageRequest) (path : String) (frameIndex : Int)
    (h : (imageCache.get path frameIndex).isNull = true)
    (hfail : (if frameIndex ≠ 0 then readMultiImage env path frameIndex
      else readNormalImage env path).isNull = true) :
    ((r.serve env imageCache).cache.get path frameIndex).isNull = true := by
  rcases hpf : parseProviderID env.toLocalFile r.id with ⟨path', frame'⟩
  have hadd : ((imageCache.add path' frame'
      (if frame' ≠ 0 then readMultiImage env path' frame'
        else readNormalImage env path')).get path frameIndex).isNull = true := by
    apply ThumbnailCache.get_add_isNull _ _ _ _ _ _ h
    intro hk
    simp only [Prod.mk.injEq] at hk
    rw [hk.1, hk.2]
    exact hfail
  cases ha : r.async <;> cases hc : (imageCache.get path' frame').isNull <;>
    simp only [ImageRequest.serve, ha, AsyncImageResponse.run, ImageProvider.requestImage, hpf,
      hc, if_true, if_false, Bool.false_eq_true] <;>
    first
      | exact h
      | exact hadd

/-- The same after any sequence of requests. -/
theorem serveAll_keeps_null (env : Env) (requests : List ImageRequest)
    (imageCache : ThumbnailCache) (path : String) (frameIndex : Int)
    (h : (imageCache.get path frameIndex).isNull = true)
    (hfail : (if frameIndex ≠ 0 then readMultiImage env path frameIndex
      else readNormalImage env path).isNull = true) :
    ((serveAll env imageCache requests).get path frameIndex).isNull = true := by
  induction requests generalizing imageCache with
  | nil => exact h
  | cons r requests ih =>
    exact ih (r.serve env imageCache).cache
      (ImageRequest.serve_keeps_null env imageCache r path frameIndex h hfail)

/-- C14: a failed load is never served from the cache.  For every id whose file decodes
to a null image, on a cache that has no non-null image for it (as a new provider,
or a provider after the failed load), and after any sequence of requests made
through `ImageProvider::requestImage` or `AsyncImageResponse::run`, for this id
or for others: a call of either function for the id decodes the file again,
hands back a null image, and leaves a lookup of the id that is null again. -/
theorem failed_load_decoded_again (env : Env) (imageCache : ThumbnailCache) (id : String)
    (requests : List ImageRequest) (size : Option QSize) (requestedSize : QSize)
    (hmiss : (imageCache.get (parseProviderID env.toLocalFile id).1
      (parseProviderID env.toLocalFile id).2).isNull = true)
    (hfail : (if (parseProviderID env.toLocalFile id).2 ≠ 0 then
        readMultiImage env (parseProviderID env.toLocalFile id).1
          (parseProviderID env.toLocalFile id).2
      else readNormalImage env (parseProviderID env.toLocalFile id).1).isNull = true) :
    ∀ r ∈ [ImageProvider.requestImage env (serveAll env imageCache requests) id size requestedSize,
        AsyncImageResponse.run env (serveAll env imageCache requests) id requestedSize],
      r.decoded =
          [if (parseProviderID env.toLocalFile id).2 ≠ 0 then
            Decoded.multiFrameReader (parseProviderID env.toLocalFile id).1
              (parseProviderID env.toLocalFile id).2
          else Decoded.staticLoader (parseProviderID env.toLocalFile id).1] ∧
        r.image.isNull = true ∧
        (r.cache.get (parseProviderID env.toLocalFile id).1
          (parseProviderID env.toLocalFile id).2).isNull = true := by
  rcases hpf : parseProviderID env.toLocalFile id with ⟨path, frame⟩
  rw [hpf] at hmiss hfail
  simp only at hmiss hfail
  have hnow := serveAll_keeps_null env requests imageCache path frame hmiss hfail
  have hafter : (((serveAll env imageCache requests).add path frame
      (if frame ≠ 0 then readMultiImage env path frame
        else readNormalImage env path)).get path frame).isNull = true :=
    ThumbnailCache.get_add_isNull _ _ _ _ _ _ hnow (fun _ => hfail)
  intro r hr
  simp only [List.mem_cons, List.mem_singleton, List.not_mem_nil, or_false] at hr
  rcases hr with rfl | rfl
  · simp only [ImageProvider.requestImage, hpf, hnow, if_true, hfail, Bool.not_true,
      Bool.false_and, Bool.false_eq_true, if_false]
    exact ⟨trivial, trivial, hafter⟩
  · simp only [AsyncImageResponse.run, hpf, hnow, if_true, hfail, Bool.not_true,
      Bool.false_and, Bool.false_eq_true, if_false]
    exact ⟨trivial, trivial, hafter⟩

/-- C14 (witness): `/missing.png` does not decode; after two requests for it on a new
cache, a third one decodes the file again. -/
theorem failed_load_decoded_again_witness :
    (ImageProvider.requestImage demoEnv
        (serveAll demoEnv (ThumbnailCache.new 4)
          [⟨false, "file:///missing.png", none, QSize.invalid⟩,
            ⟨true, "file:///missing.png", none, QSize.invalid⟩])
        "file:///missing.png" none QSize.invalid).decoded =
      [Decoded.staticLoader "/missing.png"] :=
  (failed_load_decoded_again demoEnv (ThumbnailCache.new 4) "file:///missing.png"
    [⟨false, "file:///missing.png", none, QSize.invalid⟩,
      ⟨true, "file:///missing.png", none, QSize.invalid⟩] none QSize.invalid
    (by decide) (by decide) _ (List.mem_cons_self _ _)).1
